import Mathlib

/-
Verification of the traffic-congestion analysis core
(`traffic_congestion/utils/tracking.py`, `speed_estimation.py`, `metrics.py`).

Python floats are embedded as real numbers, Python ints as naturals where the
source keeps them non-negative (frame indices, counters, ages).  A Python
`collections.deque(maxlen=n)` is embedded as a list together with the
`dequeAppend` operation that drops the oldest element once the capacity is
exceeded.  A Python `dict` (insertion ordered) is embedded as an association
list `List (Nat times alpha)` with in-place value update and append-on-new-key,
which reproduces CPython's key ordering.
-/

open scoped Classical

noncomputable section

namespace Traffic

/-! ## Generic helpers: deques, means, association lists -/

/-- Embedding of `deque.append` for a `deque(maxlen=maxlen)`: append on the
right, and drop the oldest (leftmost) element when the capacity is exceeded. -/
def dequeAppend {α : Type} (maxlen : ℕ) (l : List α) (x : α) : List α :=
  let l' := l ++ [x]
  if maxlen < l'.length then l'.tail else l'

/-- Embedding of `np.mean` on a list of floats (`sum / len`; NumPy returns NaN
on an empty list, a case every call site below guards against). -/
def listMean (l : List ℝ) : ℝ := l.sum / l.length

/-- Population variance, so that `np.std l = Real.sqrt (listVar l)`. -/
def listVar (l : List ℝ) : ℝ :=
  (l.map (fun x => (x - listMean l) ^ 2)).sum / l.length

/-- Embedding of the Python slice `l[-n:]` for `n ≥ 1` (the only way the code
calls it): the last `n` elements. -/
def lastN {α : Type} (n : ℕ) (l : List α) : List α := l.drop (l.length - n)

/-- Lookup in an insertion-ordered association list (Python `d[k]` / `d.get(k)`). -/
def lookupA {α : Type} (l : List (ℕ × α)) (k : ℕ) : Option α :=
  match l with
  | [] => none
  | (k', v) :: rest => if k' = k then some v else lookupA rest k

/-- Key membership (Python `k in d`). -/
def containsA {α : Type} (l : List (ℕ × α)) (k : ℕ) : Bool :=
  match l with
  | [] => false
  | (k', _) :: rest => if k' = k then true else containsA rest k

/-- Set a key to a value (Python `d[k] = v`): update in place when the key is
present, append otherwise — preserving CPython dict insertion order. -/
def setA {α : Type} (l : List (ℕ × α)) (k : ℕ) (v : α) : List (ℕ × α) :=
  match l with
  | [] => [(k, v)]
  | (k', v') :: rest => if k' = k then (k', v) :: rest else (k', v') :: setA rest k v

/-- Delete a key (Python `del d[k]`); removes every pair with that key, which
agrees with `del` on the duplicate-free lists every reachable state has. -/
def eraseA {α : Type} (l : List (ℕ × α)) (k : ℕ) : List (ℕ × α) :=
  match l with
  | [] => []
  | p :: rest => if p.1 = k then eraseA rest k else p :: eraseA rest k

/-- `eraseA` acting on the key list alone. -/
def filterOutKey (l : List ℕ) (k : ℕ) : List ℕ :=
  match l with
  | [] => []
  | x :: rest => if x = k then filterOutKey rest k else x :: filterOutKey rest k

/-- The key list of an association list (Python `d.keys()`). -/
def keysA {α : Type} (l : List (ℕ × α)) : List ℕ := l.map Prod.fst

/-- Update the value stored at a key in place (Python `d[k].method(...)` on a
present key): every pair keeps its key, the pair at `k` gets `f` applied. -/
def updValueAt {α : Type} (l : List (ℕ × α)) (k : ℕ) (f : α → α) : List (ℕ × α) :=
  l.map (fun p => if p.1 = k then (p.1, f p.2) else p)

/-! ## `tracking.py`: `VehicleTrack` -/

/-- A bounding box `[x1, y1, x2, y2]`. -/
abbrev Bbox : Type := ℝ × ℝ × ℝ × ℝ

/-- State of `VehicleTrack` (`tracking.py`, lines 11–48).  The deques
`centroids`, `bboxes`, `frame_indices`, `speeds_px`, `speeds_real` all have
`maxlen = max_history`. -/
structure VehicleTrack where
  track_id : ℕ
  max_history : ℕ
  centroids : List (ℝ × ℝ)
  bboxes : List Bbox
  frame_indices : List ℕ
  speeds_px : List ℝ
  speeds_real : List ℝ
  class_id : Option ℤ
  class_name : Option String
  first_frame : Option ℕ
  last_frame : Option ℕ
  total_frames : ℕ
  is_active : Bool

/-- `VehicleTrack.__init__`. -/
def VehicleTrack.init (track_id : ℕ) (max_history : ℕ) : VehicleTrack :=
  { track_id := track_id
    max_history := max_history
    centroids := []
    bboxes := []
    frame_indices := []
    speeds_px := []
    speeds_real := []
    class_id := none
    class_name := none
    first_frame := none
    last_frame := none
    total_frames := 0
    is_active := true }

/-- `VehicleTrack.compute_centroid`. -/
def compute_centroid (bbox : Bbox) : ℝ × ℝ :=
  ((bbox.1 + bbox.2.2.1) / 2, (bbox.2.1 + bbox.2.2.2) / 2)

/-- `VehicleTrack.compute_speed_pixels`: Euclidean distance between the last
two centroids (`centroids[-2]` and `centroids[-1]`), `0.0` with fewer than two. -/
def VehicleTrack.compute_speed_pixels (t : VehicleTrack) : ℝ :=
  if t.centroids.length < 2 then 0
  else
    match t.centroids.reverse with
    | c2 :: c1 :: _ =>
        Real.sqrt ((c2.1 - c1.1) ^ 2 + (c2.2 - c1.2) ^ 2)
    | _ => 0

/-- `VehicleTrack.update` (`tracking.py`, lines 50–84): append centroid, bbox
and frame index, refresh class info and frame metadata, and — once at least two
centroids are held — append the pixel speed of the last step. -/
def VehicleTrack.update (t : VehicleTrack) (bbox : Bbox) (frame_idx : ℕ)
    (class_id : Option ℤ) (class_name : Option String) : VehicleTrack :=
  let centroid := compute_centroid bbox
  let t1 : VehicleTrack :=
    { t with
      centroids := dequeAppend t.max_history t.centroids centroid
      bboxes := dequeAppend t.max_history t.bboxes bbox
      frame_indices := dequeAppend t.max_history t.frame_indices frame_idx
      class_id := match class_id with | some c => some c | none => t.class_id
      class_name := match class_name with | some c => some c | none => t.class_name
      first_frame := match t.first_frame with | none => some frame_idx | some f => some f
      last_frame := some frame_idx
      total_frames := t.total_frames + 1 }
  if 2 ≤ t1.centroids.length then
    { t1 with speeds_px := dequeAppend t1.max_history t1.speeds_px t1.compute_speed_pixels }
  else t1

/-- `VehicleTrack.get_average_speed_pixels`: mean of the last `window` pixel
speeds, `0.0` when no speed has been recorded. -/
def VehicleTrack.get_average_speed_pixels (t : VehicleTrack) (window : ℕ) : ℝ :=
  if t.speeds_px = [] then 0 else listMean (lastN window t.speeds_px)

/-- `VehicleTrack.is_stopped` as called by the congestion detector
(`window = 5`, threshold passed explicitly). -/
def VehicleTrack.is_stopped (t : VehicleTrack) (threshold : ℝ) : Bool :=
  decide (t.get_average_speed_pixels 5 < threshold)

/-- `VehicleTrack.get_current_bbox` (`None` embedded as `Option`). -/
def VehicleTrack.get_current_bbox (t : VehicleTrack) : Option Bbox :=
  t.bboxes.getLast?

/-- One `update` argument tuple `(bbox, frame_idx, class_id, class_name)` for a
single track. -/
structure TrackUpd where
  bbox : Bbox
  frame_idx : ℕ
  class_id : Option ℤ
  class_name : Option String

/-- Apply a sequence of `VehicleTrack.update` calls. -/
def applyTrackUpdates (us : List TrackUpd) (t : VehicleTrack) : VehicleTrack :=
  us.foldl (fun t u => t.update u.bbox u.frame_idx u.class_id u.class_name) t

/-! ## `tracking.py`: `TrackManager` -/

/-- One entry of the detection list handed to `TrackManager.update`:
`(track_id, bbox, class_id, class_name)`. -/
structure Detection where
  track_id : ℕ
  bbox : Bbox
  class_id : Option ℤ
  class_name : Option String

/-- State of `TrackManager` (`tracking.py`, lines 214–239). -/
structure TrackManager where
  max_age : ℕ
  max_history : ℕ
  tracks : List (ℕ × VehicleTrack)
  track_ages : List (ℕ × ℕ)
  completed_tracks : List VehicleTrack
  total_tracks_created : ℕ
  total_tracks_completed : ℕ

/-- `TrackManager.__init__`. -/
def TrackManager.init (max_age : ℕ) (max_history : ℕ) : TrackManager :=
  { max_age := max_age
    max_history := max_history
    tracks := []
    track_ages := []
    completed_tracks := []
    total_tracks_created := 0
    total_tracks_completed := 0 }

/-- `TrackManager.remove_track` (lines 281–296): if the id is tracked, mark the
track inactive, archive it, delete it from both maps and bump the counter. -/
def TrackManager.remove_track (m : TrackManager) (track_id : ℕ) : TrackManager :=
  match lookupA m.tracks track_id with
  | none => m
  | some t =>
      { m with
        tracks := eraseA m.tracks track_id
        track_ages := eraseA m.track_ages track_id
        completed_tracks := m.completed_tracks ++ [{ t with is_active := false }]
        total_tracks_completed := m.total_tracks_completed + 1 }

/-- Body of the first loop of `TrackManager.update` for one detection: create
the track if the id is new, update it with the detection, zero its miss-age. -/
def TrackManager.processDetection (m : TrackManager) (frame_idx : ℕ)
    (d : Detection) : TrackManager :=
  let m1 :=
    if containsA m.tracks d.track_id then m
    else
      { m with
        tracks := m.tracks ++ [(d.track_id, VehicleTrack.init d.track_id m.max_history)]
        total_tracks_created := m.total_tracks_created + 1 }
  { m1 with
    tracks := updValueAt m1.tracks d.track_id
      (fun t => t.update d.bbox frame_idx d.class_id d.class_name)
    track_ages := setA m1.track_ages d.track_id 0 }

/-- Second loop of `TrackManager.update`: walk the tracked ids in map order,
increment the miss-age of every id not detected this frame, and collect into
`tracks_to_remove` the ids whose new age exceeds `max_age`.  Returns the new
`track_ages` map and `tracks_to_remove`. -/
def agePhaseAux (detected : List ℕ) (max_age : ℕ) :
    List ℕ → List (ℕ × ℕ) × List ℕ → List (ℕ × ℕ) × List ℕ
  | [], acc => acc
  | k :: ks, acc =>
      agePhaseAux detected max_age ks
        (if k ∈ detected then acc
         else
           let newAge := (lookupA acc.1 k).getD 0 + 1
           (setA acc.1 k newAge, if max_age < newAge then acc.2 ++ [k] else acc.2))

/-- The aging loop started on the current `track_ages` map with an empty
`tracks_to_remove` list. -/
def agePhase (detected : List ℕ) (max_age : ℕ) (keys : List ℕ)
    (ages : List (ℕ × ℕ)) : List (ℕ × ℕ) × List ℕ :=
  agePhaseAux detected max_age keys (ages, [])

/-- `TrackManager.update` (lines 241–279): process each detection, age the
undetected tracks, and remove the aged-out ones via `remove_track`. -/
def TrackManager.update (m : TrackManager) (detections : List Detection)
    (frame_idx : ℕ) : TrackManager :=
  let m1 := detections.foldl (fun m d => m.processDetection frame_idx d) m
  let detected_ids := detections.map Detection.track_id
  let aged := agePhase detected_ids m1.max_age (keysA m1.tracks) m1.track_ages
  let m2 := { m1 with track_ages := aged.1 }
  aged.2.foldl TrackManager.remove_track m2

/-- `TrackManager.get_active_tracks`. -/
def TrackManager.get_active_tracks (m : TrackManager) : List VehicleTrack :=
  m.tracks.map Prod.snd

/-- `TrackManager.clear` (lines 324–328): archive every active track. -/
def TrackManager.clear (m : TrackManager) : TrackManager :=
  (keysA m.tracks).foldl TrackManager.remove_track m

/-- The operations a caller can perform on a `TrackManager`. -/
inductive TMOp : Type
  | update (detections : List Detection) (frame_idx : ℕ)
  | removeTrack (track_id : ℕ)
  | clear

/-- Apply one operation. -/
def applyTMOp (m : TrackManager) : TMOp → TrackManager
  | .update dets f => m.update dets f
  | .removeTrack tid => m.remove_track tid
  | .clear => m.clear

/-- Apply a sequence of operations. -/
def applyTMOps (ops : List TMOp) (m : TrackManager) : TrackManager :=
  ops.foldl applyTMOp m

/-- A list of miss-frames: `update` calls given by their detection lists and
frame indices. -/
def applyTMUpdates (us : List (List Detection × ℕ)) (m : TrackManager) : TrackManager :=
  us.foldl (fun m u => m.update u.1 u.2) m

/-! ## `speed_estimation.py` -/

/-- State of the base `SpeedEstimator` (`speed_estimation.py`, lines 12–23). -/
structure SpeedEstimator where
  fps : ℝ
  frame_time : ℝ

/-- `SpeedEstimator.__init__`: computing `1.0 / fps` raises `ZeroDivisionError`
exactly when `fps = 0`, embedded as `none`; every other `fps` constructs. -/
def SpeedEstimator.init (fps : ℝ) : Option SpeedEstimator :=
  if fps = 0 then none else some { fps := fps, frame_time := 1 / fps }

/-- State of `PixelSpeedEstimator` (lines 39–55). -/
structure PixelSpeedEstimator where
  fps : ℝ
  frame_time : ℝ
  pixels_per_meter : ℝ

/-- `PixelSpeedEstimator.__init__`: the base constructor, then the calibration
factor. -/
def PixelSpeedEstimator.init (fps : ℝ) (pixels_per_meter : ℝ) :
    Option PixelSpeedEstimator :=
  (SpeedEstimator.init fps).map fun b =>
    { fps := b.fps, frame_time := b.frame_time, pixels_per_meter := pixels_per_meter }

/-- `PixelSpeedEstimator.pixels_to_speed`: pixels/frame to km/h. -/
def PixelSpeedEstimator.pixels_to_speed (e : PixelSpeedEstimator)
    (pixels_per_frame : ℝ) : ℝ :=
  pixels_per_frame / e.pixels_per_meter * e.fps * 3.6

/-- State of `HomographySpeedEstimator` (lines 91–112).  The matrix itself is
produced by the external `cv2.findHomography` call, outside this core; the
constructor invoked without point correspondences leaves it `None`. -/
structure HomographySpeedEstimator where
  fps : ℝ
  frame_time : ℝ
  homography_matrix : Option (Fin 3 → Fin 3 → ℝ)

/-- `HomographySpeedEstimator.__init__` with `image_points = world_points =
None`: the base constructor, then `homography_matrix = None`. -/
def HomographySpeedEstimator.init (fps : ℝ) : Option HomographySpeedEstimator :=
  (SpeedEstimator.init fps).map fun b =>
    { fps := b.fps, frame_time := b.frame_time, homography_matrix := none }

/-- State of `SpeedSmoother` (lines 262–276); `speed_history` is a
`deque(maxlen=window_size)`. -/
structure SpeedSmoother where
  window_size : ℕ
  outlier_threshold : ℝ
  speed_history : List ℝ

/-- `SpeedSmoother.__init__`. -/
def SpeedSmoother.init (window_size : ℕ) (outlier_threshold : ℝ) : SpeedSmoother :=
  { window_size := window_size, outlier_threshold := outlier_threshold,
    speed_history := [] }

/-- `SpeedSmoother.add_speed` (lines 278–303): with more than two stored
samples, replace the incoming speed by the window mean when the window's
standard deviation (`np.std`) is positive and the z-score of the incoming
speed exceeds the threshold; then append (evicting the oldest at capacity) and
return the new window mean.  Returns `(smoothed, new state)`. -/
def SpeedSmoother.add_speed (sm : SpeedSmoother) (speed : ℝ) : ℝ × SpeedSmoother :=
  let speed' :=
    if 2 < sm.speed_history.length then
      let mean := listMean sm.speed_history
      let std := Real.sqrt (listVar sm.speed_history)
      if 0 < std ∧ sm.outlier_threshold < |(speed - mean) / std| then mean else speed
    else speed
  let h' := dequeAppend sm.window_size sm.speed_history speed'
  (listMean h', { sm with speed_history := h' })

/-! ## `metrics.py` -/

/-- `CongestionLevel` (`metrics.py`, lines 12–18). -/
inductive CongestionLevel : Type
  | FREE_FLOW
  | LIGHT
  | MODERATE
  | HEAVY
  | TRAFFIC_JAM
  deriving DecidableEq

/-- The `CongestionMetrics` dataclass (lines 45–69).  The occupancy fraction
field is named `occupancy_ratio` in the source. -/
structure CongestionMetrics where
  vehicle_count : ℕ
  occupancy : ℝ
  average_speed : ℝ
  stopped_count : ℕ
  flow_rate : ℝ
  queue_length : ℝ
  density_score : ℝ
  speed_score : ℝ
  flow_score : ℝ
  congestion_score : ℝ
  congestion_level : CongestionLevel
  frame_idx : ℕ
  timestamp : ℝ
  roi_area : ℝ

/-- State of `CongestionDetector` (lines 72–128). -/
structure CongestionDetector where
  roi_area : ℝ
  max_vehicles : ℕ
  max_speed : ℝ
  stopped_threshold : ℝ
  density_weight : ℝ
  speed_weight : ℝ
  flow_weight : ℝ
  queue_weight : ℝ
  vehicle_entry_count : ℕ
  flow_window_frames : ℕ
  flow_window_duration : ℝ
  thresholds : List (CongestionLevel × ℝ × ℝ)

/-- `np.isclose` with its default tolerances `rtol = 1e-5`, `atol = 1e-8`:
`|a - b| ≤ atol + rtol * |b|`. -/
def npIsClose (a b : ℝ) : Prop := |a - b| ≤ 1e-8 + 1e-5 * |b|

/-- The classification threshold table installed by the constructor
(lines 121–128), in Python dict insertion order. -/
def defaultThresholds : List (CongestionLevel × ℝ × ℝ) :=
  [(.FREE_FLOW, 0, 0.2), (.LIGHT, 0.2, 0.4), (.MODERATE, 0.4, 0.6),
   (.HEAVY, 0.6, 0.8), (.TRAFFIC_JAM, 0.8, 1)]

/-- `CongestionDetector.__init__` (lines 78–128): store the configuration,
validate the weight sum with `np.isclose(total, 1.0)` (raising `ValueError`,
embedded as `none`, when it fails), and install the flow-window counters and
the default threshold table. -/
def CongestionDetector.init (roi_area : ℝ) (max_vehicles : ℕ) (max_speed : ℝ)
    (stopped_threshold : ℝ) (density_weight speed_weight flow_weight queue_weight : ℝ) :
    Option CongestionDetector :=
  let total_weight := density_weight + speed_weight + flow_weight + queue_weight
  if npIsClose total_weight 1 then
    some
      { roi_area := roi_area
        max_vehicles := max_vehicles
        max_speed := max_speed
        stopped_threshold := stopped_threshold
        density_weight := density_weight
        speed_weight := speed_weight
        flow_weight := flow_weight
        queue_weight := queue_weight
        vehicle_entry_count := 0
        flow_window_frames := 0
        flow_window_duration := 60
        thresholds := defaultThresholds }
  else none

/-- `CongestionDetector.compute_density_score` (lines 130–151). -/
def CongestionDetector.compute_density_score (d : CongestionDetector)
    (vehicle_count : ℕ) (total_bbox_area : ℝ) : ℝ :=
  let count_density := min ((vehicle_count : ℝ) / (d.max_vehicles : ℝ)) 1
  let area_density := min (total_bbox_area / d.roi_area) 1
  (count_density + area_density) / 2

/-- `CongestionDetector.compute_speed_score` (lines 153–171). -/
def CongestionDetector.compute_speed_score (d : CongestionDetector)
    (average_speed : ℝ) : ℝ :=
  if average_speed ≤ 0 then 1
  else 1 - min (average_speed / d.max_speed) 1

/-- `CongestionDetector.compute_flow_score` (lines 173–193); `expected_flow`
defaults to `30.0` at the call site. -/
def CongestionDetector.compute_flow_score (_ : CongestionDetector)
    (flow_rate : ℝ) (expected_flow : ℝ) : ℝ :=
  if flow_rate ≤ 0 then 1
  else 1 - min (flow_rate / expected_flow) 1

/-- `CongestionDetector.compute_queue_score` (lines 195–214). -/
def CongestionDetector.compute_queue_score (_ : CongestionDetector)
    (stopped_count : ℕ) (vehicle_count : ℕ) : ℝ :=
  if vehicle_count = 0 then 0
  else (stopped_count : ℝ) / (vehicle_count : ℝ)

/-- `CongestionDetector.compute_congestion_score` (lines 216–239). -/
def CongestionDetector.compute_congestion_score (d : CongestionDetector)
    (density_score speed_score flow_score queue_score : ℝ) : ℝ :=
  d.density_weight * density_score + d.speed_weight * speed_score +
    d.flow_weight * flow_score + d.queue_weight * queue_score

/-- The loop of `classify_congestion` over a threshold table: the first band
containing the score wins, and a score in no band classifies as
`TRAFFIC_JAM`. -/
def classifyFrom (ths : List (CongestionLevel × ℝ × ℝ)) (s : ℝ) : CongestionLevel :=
  match ths with
  | [] => .TRAFFIC_JAM
  | (level, min_score, max_score) :: rest =>
      if min_score ≤ s ∧ s < max_score then level else classifyFrom rest s

/-- `CongestionDetector.classify_congestion` (lines 241–256). -/
def CongestionDetector.classify_congestion (d : CongestionDetector) (s : ℝ) :
    CongestionLevel :=
  classifyFrom d.thresholds s

/-- Python float division `a / b`: it raises `ZeroDivisionError` — embedded as
`none` — exactly when the divisor is zero. -/
def pyFloatDiv (a b : ℝ) : Option ℝ :=
  if b = 0 then none else some (a / b)

/-- Python's `timestamp or fallback-expression`: `None` and `0.0` are falsy,
and the fallback expression — which may itself raise — is evaluated only
then. -/
def pyOrFloat (t : Option ℝ) (fallback : Option ℝ) : Option ℝ :=
  match t with
  | none => fallback
  | some v => if v = 0 then fallback else some v

/-- `CongestionDetector.analyze` (lines 258–367).  Returns the metrics
snapshot (`none` when the method raises `ZeroDivisionError`) together with the
detector state at the moment the call returns or raises — the method mutates
only `flow_window_frames` and `vehicle_entry_count`, and a raise leaves
whatever had been mutated up to that point.  The division points are embedded
in the source's statement order: the `timestamp or (frame_idx / fps)` fallback
(raises at `fps = 0` with a falsy timestamp; line 293 on the empty path, line
365 on the populated path, after the counter mutation), the occupancy division
by `roi_area` (line 319, before the counter mutation), the elapsed-minutes
division by `fps * 60` inside the flow estimate (line 330), the
`vehicle_count / max_vehicles` division inside `compute_density_score` (line
143, raises when `max_vehicles = 0`; its other division is by `roi_area`,
already known nonzero here), and the `average_speed / max_speed` division
inside `compute_speed_score` (line 168, reached only when the average speed is
positive). -/
def CongestionDetector.analyze (d : CongestionDetector) (tracks : List VehicleTrack)
    (frame_idx : ℕ) (fps : ℝ) (timestamp : Option ℝ) :
    Option CongestionMetrics × CongestionDetector :=
  let vehicle_count := tracks.length
  if vehicle_count = 0 then
    match pyOrFloat timestamp (pyFloatDiv (frame_idx : ℝ) fps) with
    | none => (none, d)
    | some tsv =>
        (some
          { vehicle_count := 0
            occupancy := 0
            average_speed := 0
            stopped_count := 0
            flow_rate := 0
            queue_length := 0
            density_score := 0
            speed_score := 0
            flow_score := 0
            congestion_score := 0
            congestion_level := .FREE_FLOW
            frame_idx := frame_idx
            timestamp := tsv
            roi_area := d.roi_area }, d)
  else
    let speeds := tracks.map (fun t => t.get_average_speed_pixels 5)
    let stopped_count := (tracks.filter (fun t => t.is_stopped d.stopped_threshold)).length
    let total_bbox_area :=
      (tracks.map (fun t =>
        match t.get_current_bbox with
        | some (x1, y1, x2, y2) => (x2 - x1) * (y2 - y1)
        | none => 0)).sum
    let average_speed := listMean speeds
    match pyFloatDiv total_bbox_area d.roi_area with
    | none => (none, d)
    | some occupancy =>
        let fwf1 := d.flow_window_frames + 1
        let flowState :=
          if (fwf1 : ℝ) ≥ fps * d.flow_window_duration then ((0 : ℕ), (0 : ℕ))
          else (fwf1, d.vehicle_entry_count)
        let d' := { d with flow_window_frames := flowState.1,
                           vehicle_entry_count := flowState.2 }
        match
          (if 0 < flowState.1 then
            (pyFloatDiv (flowState.1 : ℝ) (fps * 60)).map
              (fun elapsed_minutes =>
                (vehicle_count : ℝ) / max elapsed_minutes (1 / 60))
          else some 0) with
        | none => (none, d')
        | some flow_rate =>
            let queue_length :=
              if 0 < vehicle_count then (stopped_count : ℝ) / (vehicle_count : ℝ) else 0
            if d.max_vehicles = 0 then (none, d')
            else
              let density_score := d.compute_density_score vehicle_count total_bbox_area
              if ¬ average_speed ≤ 0 ∧ d.max_speed = 0 then (none, d')
              else
                let speed_score := d.compute_speed_score average_speed
                let flow_score := d.compute_flow_score flow_rate 30
                let queue_score := d.compute_queue_score stopped_count vehicle_count
                let congestion_score :=
                  d.compute_congestion_score density_score speed_score flow_score queue_score
                match pyOrFloat timestamp (pyFloatDiv (frame_idx : ℝ) fps) with
                | none => (none, d')
                | some tsv =>
                    (some
                      { vehicle_count := vehicle_count
                        occupancy := occupancy
                        average_speed := average_speed
                        stopped_count := stopped_count
                        flow_rate := flow_rate
                        queue_length := queue_length
                        density_score := density_score
                        speed_score := speed_score
                        flow_score := flow_score
                        congestion_score := congestion_score
                        congestion_level := d.classify_congestion congestion_score
                        frame_idx := frame_idx
                        timestamp := tsv
                        roi_area := d.roi_area }, d')

/-- A `CongestionDetector` built with every constructor default
(`roi_area = 640 * 480`, `max_vehicles = 50`, `max_speed = 100`,
`stopped_threshold = 2`, weights `0.35 / 0.35 / 0.20 / 0.10`). -/
def defaultDetector : CongestionDetector :=
  { roi_area := 640 * 480
    max_vehicles := 50
    max_speed := 100
    stopped_threshold := 2
    density_weight := 0.35
    speed_weight := 0.35
    flow_weight := 0.20
    queue_weight := 0.10
    vehicle_entry_count := 0
    flow_window_frames := 0
    flow_window_duration := 60
    thresholds := defaultThresholds }

/-! ## Concrete sample inputs used by witnesses and counterexamples -/

/-- A sample bounding box. -/
def sampleBbox : Bbox := (0, 0, 2, 2)

/-- A sample `VehicleTrack.update` argument tuple at a given frame. -/
def sampleUpd (f : ℕ) : TrackUpd :=
  { bbox := sampleBbox, frame_idx := f, class_id := none, class_name := none }

/-- A track of capacity 2 that has received three updates — one more than its
history capacity. -/
def c1Track : VehicleTrack :=
  applyTrackUpdates [sampleUpd 0, sampleUpd 1, sampleUpd 2] (VehicleTrack.init 1 2)

/-- A sample detection for track id 1. -/
def sampleDetection : Detection :=
  { track_id := 1, bbox := sampleBbox, class_id := some 0, class_name := none }

/-- A manager with `max_age = 1` that has seen track id 1 exactly once. -/
def c4Manager : TrackManager :=
  (TrackManager.init 1 30).update [sampleDetection] 0

/-- The track state held by `c4Manager` for id 1. -/
def c4Track : VehicleTrack :=
  (VehicleTrack.init 1 30).update sampleBbox 0 (some 0) none

/-- A freshly created track, used as a minimal non-empty `analyze` input. -/
def sampleTrack : VehicleTrack := VehicleTrack.init 1 30

/-- A detector configured with `roi_area = 0` and a running flow window, on
which a populated `analyze` call raises before reaching the counter
mutation. -/
def zeroRoiDetector : CongestionDetector :=
  { defaultDetector with roi_area := 0, flow_window_frames := 1 }

/-! ## Library lemmas about the helpers -/

theorem lookupA_nil {α : Type} (k : ℕ) : lookupA ([] : List (ℕ × α)) k = none := rfl

theorem lookupA_cons {α : Type} (p : ℕ × α) (rest : List (ℕ × α)) (k : ℕ) :
    lookupA (p :: rest) k = if p.1 = k then some p.2 else lookupA rest k := rfl

theorem containsA_cons {α : Type} (p : ℕ × α) (rest : List (ℕ × α)) (k : ℕ) :
    containsA (p :: rest) k = if p.1 = k then true else containsA rest k := rfl

theorem keysA_nil {α : Type} : keysA ([] : List (ℕ × α)) = [] := rfl

theorem keysA_cons {α : Type} (p : ℕ × α) (rest : List (ℕ × α)) :
    keysA (p :: rest) = p.1 :: keysA rest := rfl

theorem setA_cons {α : Type} (p : ℕ × α) (rest : List (ℕ × α)) (k : ℕ) (v : α) :
    setA (p :: rest) k v = if p.1 = k then (p.1, v) :: rest else p :: setA rest k v := rfl

theorem eraseA_cons {α : Type} (p : ℕ × α) (rest : List (ℕ × α)) (k : ℕ) :
    eraseA (p :: rest) k = if p.1 = k then eraseA rest k else p :: eraseA rest k := rfl

theorem updValueAt_cons {α : Type} (p : ℕ × α) (rest : List (ℕ × α)) (k : ℕ)
    (f : α → α) :
    updValueAt (p :: rest) k f =
      (if p.1 = k then (p.1, f p.2) else p) :: updValueAt rest k f := rfl

theorem length_dequeAppend {α : Type} (n : ℕ) (l : List α) (x : α) :
    (dequeAppend n l x).length = if n < l.length + 1 then l.length else l.length + 1 := by
  by_cases h : n < l.length + 1 <;>
    simp [dequeAppend, h, List.length_tail]

theorem mem_keysA_iff_containsA {α : Type} (l : List (ℕ × α)) (k : ℕ) :
    k ∈ keysA l ↔ containsA l k = true := by
  induction l with
  | nil => simp [keysA, containsA]
  | cons p rest ih =>
      by_cases h : p.1 = k
      · simp [keysA_cons, containsA_cons, h]
      · have h' : ¬ k = p.1 := fun hh => h hh.symm
        rw [keysA_cons, containsA_cons, if_neg h]
        simp [h', ih]

theorem lookupA_eq_none_iff {α : Type} (l : List (ℕ × α)) (k : ℕ) :
    lookupA l k = none ↔ k ∉ keysA l := by
  induction l with
  | nil => simp [lookupA_nil, keysA_nil]
  | cons p rest ih =>
      by_cases h : p.1 = k
      · simp [lookupA_cons, keysA_cons, h]
      · have h' : ¬ k = p.1 := fun hh => h hh.symm
        rw [lookupA_cons, if_neg h, keysA_cons]
        simp [h', ih]

theorem keysA_setA {α : Type} (l : List (ℕ × α)) (k : ℕ) (v : α) :
    keysA (setA l k v) = if k ∈ keysA l then keysA l else keysA l ++ [k] := by
  induction l with
  | nil => simp [setA, keysA]
  | cons p rest ih =>
      by_cases h : p.1 = k
      · subst h
        simp [setA_cons, keysA_cons]
      · have h' : ¬ k = p.1 := fun hh => h hh.symm
        rw [setA_cons, if_neg h, keysA_cons, keysA_cons, ih]
        by_cases hk : k ∈ keysA rest <;> simp [hk, h']

theorem lookupA_setA_self {α : Type} (l : List (ℕ × α)) (k : ℕ) (v : α) :
    lookupA (setA l k v) k = some v := by
  induction l with
  | nil => simp [setA, lookupA_cons]
  | cons p rest ih =>
      rw [setA_cons]
      by_cases h : p.1 = k
      · rw [if_pos h, lookupA_cons, if_pos h]
      · rw [if_neg h, lookupA_cons, if_neg h]
        exact ih

theorem lookupA_setA_ne {α : Type} (l : List (ℕ × α)) (k k' : ℕ) (v : α)
    (h : k' ≠ k) : lookupA (setA l k v) k' = lookupA l k' := by
  induction l with
  | nil =>
      have h' : ¬ k = k' := fun hh => h hh.symm
      simp [setA, lookupA_cons, lookupA_nil, h']
  | cons p rest ih =>
      rw [setA_cons]
      by_cases hp : p.1 = k
      · rw [if_pos hp, lookupA_cons, lookupA_cons]
        have : ¬ p.1 = k' := by rw [hp]; exact fun hh => h hh.symm
        rw [if_neg this, if_neg this]
      · rw [if_neg hp, lookupA_cons, lookupA_cons, ih]

theorem keysA_eraseA {α : Type} (l : List (ℕ × α)) (k : ℕ) :
    keysA (eraseA l k) = filterOutKey (keysA l) k := by
  induction l with
  | nil => rfl
  | cons p rest ih =>
      rw [eraseA_cons, keysA_cons]
      by_cases h : p.1 = k
      · rw [if_pos h, ih, filterOutKey, if_pos h]
      · rw [if_neg h, keysA_cons, ih, filterOutKey, if_neg h]

theorem lookupA_eraseA_self {α : Type} (l : List (ℕ × α)) (k : ℕ) :
    lookupA (eraseA l k) k = none := by
  induction l with
  | nil => rfl
  | cons p rest ih =>
      rw [eraseA_cons]
      by_cases h : p.1 = k
      · rw [if_pos h]; exact ih
      · rw [if_neg h, lookupA_cons, if_neg h]; exact ih

theorem lookupA_eraseA_ne {α : Type} (l : List (ℕ × α)) (k k' : ℕ)
    (h : k' ≠ k) : lookupA (eraseA l k) k' = lookupA l k' := by
  induction l with
  | nil => rfl
  | cons p rest ih =>
      rw [eraseA_cons]
      by_cases hp : p.1 = k
      · rw [if_pos hp, lookupA_cons, ih]
        have : ¬ p.1 = k' := by rw [hp]; exact fun hh => h hh.symm
        rw [if_neg this]
      · rw [if_neg hp, lookupA_cons, lookupA_cons, ih]

theorem lookupA_append {α : Type} (l₁ l₂ : List (ℕ × α)) (k : ℕ) :
    lookupA (l₁ ++ l₂) k = ((lookupA l₁ k).or (lookupA l₂ k)) := by
  induction l₁ with
  | nil => simp [lookupA_nil]
  | cons p rest ih =>
      rw [List.cons_append, lookupA_cons, lookupA_cons]
      by_cases h : p.1 = k
      · rw [if_pos h, if_pos h]; rfl
      · rw [if_neg h, if_neg h, ih]

theorem keysA_updValueAt {α : Type} (l : List (ℕ × α)) (k : ℕ) (f : α → α) :
    keysA (updValueAt l k f) = keysA l := by
  induction l with
  | nil => rfl
  | cons p rest ih =>
      rw [updValueAt_cons, keysA_cons, keysA_cons, ih]
      by_cases h : p.1 = k
      · rw [if_pos h]
      · rw [if_neg h]

theorem lookupA_updValueAt_ne {α : Type} (l : List (ℕ × α)) (k k' : ℕ)
    (f : α → α) (h : k' ≠ k) : lookupA (updValueAt l k f) k' = lookupA l k' := by
  induction l with
  | nil => rfl
  | cons p rest ih =>
      rw [updValueAt_cons]
      by_cases hp : p.1 = k
      · rw [if_pos hp, lookupA_cons, lookupA_cons]
        have : ¬ p.1 = k' := by rw [hp]; exact fun hh => h hh.symm
        rw [if_neg this, if_neg this, ih]
      · rw [if_neg hp, lookupA_cons, lookupA_cons, ih]

theorem lookupA_mem_values {α : Type} (l : List (ℕ × α)) (k : ℕ) (v : α)
    (h : lookupA l k = some v) : v ∈ l.map Prod.snd := by
  induction l with
  | nil => simp [lookupA_nil] at h
  | cons p rest ih =>
      rw [lookupA_cons] at h
      by_cases hp : p.1 = k
      · rw [if_pos hp] at h
        simp [Option.some_inj.mp h]
      · rw [if_neg hp] at h
        simp [ih h]

theorem filterOutKey_sublist (l : List ℕ) (k : ℕ) : (filterOutKey l k).Sublist l := by
  induction l with
  | nil => exact List.Sublist.refl []
  | cons x rest ih =>
      rw [filterOutKey]
      by_cases h : x = k
      · rw [if_pos h]; exact ih.cons x
      · rw [if_neg h]; exact ih.cons₂ x

theorem not_mem_filterOutKey_self (l : List ℕ) (k : ℕ) : k ∉ filterOutKey l k := by
  induction l with
  | nil => simp [filterOutKey]
  | cons x rest ih =>
      rw [filterOutKey]
      by_cases h : x = k
      · rw [if_pos h]; exact ih
      · rw [if_neg h]
        simp only [List.mem_cons]
        rintro (rfl | hm)
        · exact h rfl
        · exact ih hm

/-! ## The tracks/ages key-set invariant (claim C9 infrastructure) -/

/-- The `TrackManager` data-model invariant: the two maps always hold exactly
the same keys (here even in the same order, matching the Python dicts). -/
def keysEq (m : TrackManager) : Prop := keysA m.tracks = keysA m.track_ages

theorem keysA_append {α : Type} (l₁ l₂ : List (ℕ × α)) :
    keysA (l₁ ++ l₂) = keysA l₁ ++ keysA l₂ := by
  unfold keysA
  exact List.map_append Prod.fst l₁ l₂

theorem keysEq_processDetection (m : TrackManager) (f : ℕ) (d : Detection)
    (h : keysEq m) : keysEq (m.processDetection f d) := by
  have hmem : d.track_id ∈ keysA m.track_ages ↔ containsA m.tracks d.track_id = true := by
    rw [← h, mem_keysA_iff_containsA]
  unfold keysEq
  by_cases hc : containsA m.tracks d.track_id = true
  · simp only [TrackManager.processDetection]
    rw [if_pos hc]
    rw [keysA_updValueAt, keysA_setA, if_pos (hmem.mpr hc), h]
  · simp only [TrackManager.processDetection]
    rw [if_neg hc]
    rw [keysA_updValueAt, keysA_setA, if_neg (fun hh => hc (hmem.mp hh)),
      keysA_append, h]
    rfl

theorem keysEq_foldl_process (f : ℕ) :
    ∀ (dets : List Detection) (m : TrackManager), keysEq m →
      keysEq (dets.foldl (fun m d => m.processDetection f d) m)
  | [], _, h => h
  | d :: dets, m, h =>
      keysEq_foldl_process f dets _ (keysEq_processDetection m f d h)

theorem keysA_agePhaseAux (det : List ℕ) (ma : ℕ) :
    ∀ (keys : List ℕ) (acc : List (ℕ × ℕ) × List ℕ),
      (∀ k ∈ keys, k ∈ keysA acc.1) →
      keysA (agePhaseAux det ma keys acc).1 = keysA acc.1
  | [], _, _ => rfl
  | k :: ks, acc, h => by
      rw [agePhaseAux]
      by_cases hd : k ∈ det
      · rw [if_pos hd]
        exact keysA_agePhaseAux det ma ks acc (fun x hx => h x (List.mem_cons_of_mem k hx))
      · rw [if_neg hd]
        have hk : k ∈ keysA acc.1 := h k (List.mem_cons_self k ks)
        have hkeys : keysA (setA acc.1 k ((lookupA acc.1 k).getD 0 + 1)) = keysA acc.1 := by
          rw [keysA_setA, if_pos hk]
        have := keysA_agePhaseAux det ma ks
          (setA acc.1 k ((lookupA acc.1 k).getD 0 + 1),
           if ma < (lookupA acc.1 k).getD 0 + 1 then acc.2 ++ [k] else acc.2)
          (fun x hx => by
            show x ∈ keysA (setA acc.1 k ((lookupA acc.1 k).getD 0 + 1))
            rw [hkeys]
            exact h x (List.mem_cons_of_mem k hx))
        rw [this, hkeys]

theorem keysEq_remove_track (m : TrackManager) (tid : ℕ) (h : keysEq m) :
    keysEq (m.remove_track tid) := by
  unfold keysEq TrackManager.remove_track
  cases hl : lookupA m.tracks tid with
  | none => exact h
  | some t =>
      show keysA (eraseA m.tracks tid) = keysA (eraseA m.track_ages tid)
      rw [keysA_eraseA, keysA_eraseA, h]

theorem keysEq_foldl_remove :
    ∀ (ids : List ℕ) (m : TrackManager), keysEq m →
      keysEq (ids.foldl TrackManager.remove_track m)
  | [], _, h => h
  | tid :: ids, m, h =>
      keysEq_foldl_remove ids _ (keysEq_remove_track m tid h)

theorem keysEq_update (m : TrackManager) (dets : List Detection) (f : ℕ)
    (h : keysEq m) : keysEq (m.update dets f) := by
  unfold TrackManager.update
  apply keysEq_foldl_remove
  have h1 : keysEq (dets.foldl (fun m d => m.processDetection f d) m) :=
    keysEq_foldl_process f dets m h
  unfold keysEq at h1 ⊢
  show keysA _ = keysA (agePhase _ _ _ _).1
  unfold agePhase
  rw [keysA_agePhaseAux]
  · exact h1
  · intro k hk
    show k ∈ keysA (dets.foldl (fun m d => m.processDetection f d) m).track_ages
    rw [← h1]
    exact hk

theorem keysEq_clear (m : TrackManager) (h : keysEq m) : keysEq m.clear :=
  keysEq_foldl_remove _ m h

theorem keysEq_applyTMOps :
    ∀ (ops : List TMOp) (m : TrackManager), keysEq m →
      keysEq (applyTMOps ops m)
  | [], _, h => h
  | op :: ops, m, h => by
      have hstep : keysEq (applyTMOp m op) := by
        cases op with
        | update dets f => exact keysEq_update m dets f h
        | removeTrack tid => exact keysEq_remove_track m tid h
        | clear => exact keysEq_clear m h
      exact keysEq_applyTMOps ops _ hstep

/-! ## Aging and eviction (claim C4 infrastructure) -/

theorem processDetection_const (m : TrackManager) (f : ℕ) (d : Detection) :
    (m.processDetection f d).max_age = m.max_age ∧
    (m.processDetection f d).max_history = m.max_history ∧
    (m.processDetection f d).completed_tracks = m.completed_tracks := by
  simp only [TrackManager.processDetection]
  by_cases hc : containsA m.tracks d.track_id = true
  · rw [if_pos hc]; exact ⟨rfl, rfl, rfl⟩
  · rw [if_neg hc]; exact ⟨rfl, rfl, rfl⟩

theorem foldl_process_const (f : ℕ) :
    ∀ (dets : List Detection) (m : TrackManager),
      (dets.foldl (fun m d => m.processDetection f d) m).max_age = m.max_age ∧
      (dets.foldl (fun m d => m.processDetection f d) m).max_history = m.max_history ∧
      (dets.foldl (fun m d => m.processDetection f d) m).completed_tracks = m.completed_tracks
  | [], _ => ⟨rfl, rfl, rfl⟩
  | d :: dets, m => by
      rw [List.foldl_cons]
      have hstep := processDetection_const m f d
      have hrec := foldl_process_const f dets (m.processDetection f d)
      exact ⟨hrec.1.trans hstep.1, hrec.2.1.trans hstep.2.1, hrec.2.2.trans hstep.2.2⟩

theorem processDetection_lookup_ne (m : TrackManager) (f : ℕ) (d : Detection)
    (tid : ℕ) (h : tid ≠ d.track_id) :
    lookupA (m.processDetection f d).tracks tid = lookupA m.tracks tid ∧
    lookupA (m.processDetection f d).track_ages tid = lookupA m.track_ages tid := by
  simp only [TrackManager.processDetection]
  by_cases hc : containsA m.tracks d.track_id = true
  · rw [if_pos hc]
    exact ⟨lookupA_updValueAt_ne _ _ _ _ h, lookupA_setA_ne _ _ _ _ h⟩
  · rw [if_neg hc]
    constructor
    · rw [lookupA_updValueAt_ne _ _ _ _ h]
      show lookupA (m.tracks ++ [(d.track_id, VehicleTrack.init d.track_id m.max_history)]) tid = _
      rw [lookupA_append]
      have hnil : lookupA [(d.track_id, VehicleTrack.init d.track_id m.max_history)] tid = none := by
        rw [lookupA_cons, if_neg (fun hh => h hh.symm)]
        rfl
      rw [hnil]
      cases lookupA m.tracks tid <;> rfl
    · exact lookupA_setA_ne _ _ _ _ h

theorem foldl_process_lookup_ne (f : ℕ) :
    ∀ (dets : List Detection) (m : TrackManager) (tid : ℕ),
      tid ∉ dets.map Detection.track_id →
      lookupA (dets.foldl (fun m d => m.processDetection f d) m).tracks tid =
        lookupA m.tracks tid ∧
      lookupA (dets.foldl (fun m d => m.processDetection f d) m).track_ages tid =
        lookupA m.track_ages tid
  | [], _, _, _ => ⟨rfl, rfl⟩
  | d :: dets, m, tid, h => by
      have hne : tid ≠ d.track_id := by
        intro hh
        exact h (by rw [List.map_cons, hh]; exact List.mem_cons_self _ _)
      have h2 : tid ∉ dets.map Detection.track_id := fun hmem =>
        h (by rw [List.map_cons]; exact List.mem_cons_of_mem _ hmem)
      rw [List.foldl_cons]
      have hstep := processDetection_lookup_ne m f d tid hne
      have hrec := foldl_process_lookup_ne f dets (m.processDetection f d) tid h2
      exact ⟨hrec.1.trans hstep.1, hrec.2.trans hstep.2⟩

theorem processDetection_nodup (m : TrackManager) (f : ℕ) (d : Detection)
    (h : (keysA m.tracks).Nodup) : (keysA (m.processDetection f d).tracks).Nodup := by
  simp only [TrackManager.processDetection]
  by_cases hc : containsA m.tracks d.track_id = true
  · rw [if_pos hc, keysA_updValueAt]
    exact h
  · rw [if_neg hc, keysA_updValueAt]
    show (keysA (m.tracks ++ [(d.track_id, VehicleTrack.init d.track_id m.max_history)])).Nodup
    rw [keysA_append]
    have hid : d.track_id ∉ keysA m.tracks := fun hmem =>
      hc ((mem_keysA_iff_containsA _ _).mp hmem)
    show (keysA m.tracks ++ [d.track_id]).Nodup
    rw [List.nodup_append]
    refine ⟨h, List.nodup_singleton _, ?_⟩
    intro x hx hx'
    rw [List.mem_singleton] at hx'
    exact hid (hx' ▸ hx)

theorem foldl_process_nodup (f : ℕ) :
    ∀ (dets : List Detection) (m : TrackManager),
      (keysA m.tracks).Nodup →
      (keysA (dets.foldl (fun m d => m.processDetection f d) m).tracks).Nodup
  | [], _, h => h
  | d :: dets, m, h => by
      rw [List.foldl_cons]
      exact foldl_process_nodup f dets (m.processDetection f d)
        (processDetection_nodup m f d h)

theorem remove_track_const (m : TrackManager) (rid : ℕ) :
    (m.remove_track rid).max_age = m.max_age ∧
    (m.remove_track rid).max_history = m.max_history := by
  simp only [TrackManager.remove_track]
  cases hl : lookupA m.tracks rid with
  | none => exact ⟨rfl, rfl⟩
  | some t => exact ⟨rfl, rfl⟩

theorem foldl_remove_const :
    ∀ (ids : List ℕ) (m : TrackManager),
      (ids.foldl TrackManager.remove_track m).max_age = m.max_age ∧
      (ids.foldl TrackManager.remove_track m).max_history = m.max_history
  | [], _ => ⟨rfl, rfl⟩
  | rid :: ids, m => by
      rw [List.foldl_cons]
      have hstep := remove_track_const m rid
      have hrec := foldl_remove_const ids (m.remove_track rid)
      exact ⟨hrec.1.trans hstep.1, hrec.2.trans hstep.2⟩

theorem remove_track_lookup_ne (m : TrackManager) (rid tid : ℕ) (h : tid ≠ rid) :
    lookupA (m.remove_track rid).tracks tid = lookupA m.tracks tid ∧
    lookupA (m.remove_track rid).track_ages tid = lookupA m.track_ages tid := by
  simp only [TrackManager.remove_track]
  cases hl : lookupA m.tracks rid with
  | none => exact ⟨rfl, rfl⟩
  | some t => exact ⟨lookupA_eraseA_ne _ _ _ h, lookupA_eraseA_ne _ _ _ h⟩

theorem remove_track_stable (m : TrackManager) (rid tid : ℕ) (x : VehicleTrack)
    (hn1 : lookupA m.tracks tid = none) (hn2 : lookupA m.track_ages tid = none)
    (hx : x ∈ m.completed_tracks) :
    lookupA (m.remove_track rid).tracks tid = none ∧
    lookupA (m.remove_track rid).track_ages tid = none ∧
    x ∈ (m.remove_track rid).completed_tracks := by
  simp only [TrackManager.remove_track]
  cases hl : lookupA m.tracks rid with
  | none => exact ⟨hn1, hn2, hx⟩
  | some t =>
      refine ⟨?_, ?_, List.mem_append_left _ hx⟩
      · by_cases h : tid = rid
        · subst h; exact lookupA_eraseA_self _ _
        · rw [lookupA_eraseA_ne _ _ _ h]; exact hn1
      · by_cases h : tid = rid
        · subst h; exact lookupA_eraseA_self _ _
        · rw [lookupA_eraseA_ne _ _ _ h]; exact hn2

theorem remove_track_evicts (m : TrackManager) (tid : ℕ) (t : VehicleTrack)
    (hl : lookupA m.tracks tid = some t) :
    lookupA (m.remove_track tid).tracks tid = none ∧
    lookupA (m.remove_track tid).track_ages tid = none ∧
    { t with is_active := false } ∈ (m.remove_track tid).completed_tracks := by
  simp only [TrackManager.remove_track]
  rw [hl]
  exact ⟨lookupA_eraseA_self _ _, lookupA_eraseA_self _ _,
    List.mem_append_right _ (List.mem_singleton_self _)⟩

theorem remove_track_nodup (m : TrackManager) (rid : ℕ)
    (h : (keysA m.tracks).Nodup) : (keysA (m.remove_track rid).tracks).Nodup := by
  simp only [TrackManager.remove_track]
  cases hl : lookupA m.tracks rid with
  | none => exact h
  | some t =>
      show (keysA (eraseA m.tracks rid)).Nodup
      rw [keysA_eraseA]
      exact List.Nodup.sublist (filterOutKey_sublist _ _) h

theorem foldl_remove_lookup_ne :
    ∀ (ids : List ℕ) (m : TrackManager) (tid : ℕ), tid ∉ ids →
      lookupA (ids.foldl TrackManager.remove_track m).tracks tid = lookupA m.tracks tid ∧
      lookupA (ids.foldl TrackManager.remove_track m).track_ages tid = lookupA m.track_ages tid
  | [], _, _, _ => ⟨rfl, rfl⟩
  | rid :: ids, m, tid, h => by
      have hne : tid ≠ rid := by
        intro hh
        exact h (by rw [hh]; exact List.mem_cons_self _ _)
      have h2 : tid ∉ ids := fun hmem => h (List.mem_cons_of_mem _ hmem)
      rw [List.foldl_cons]
      have hstep := remove_track_lookup_ne m rid tid hne
      have hrec := foldl_remove_lookup_ne ids (m.remove_track rid) tid h2
      exact ⟨hrec.1.trans hstep.1, hrec.2.trans hstep.2⟩

theorem foldl_remove_stable :
    ∀ (ids : List ℕ) (m : TrackManager) (tid : ℕ) (x : VehicleTrack),
      lookupA m.tracks tid = none → lookupA m.track_ages tid = none →
      x ∈ m.completed_tracks →
      lookupA (ids.foldl TrackManager.remove_track m).tracks tid = none ∧
      lookupA (ids.foldl TrackManager.remove_track m).track_ages tid = none ∧
      x ∈ (ids.foldl TrackManager.remove_track m).completed_tracks
  | [], _, _, _, h1, h2, h3 => ⟨h1, h2, h3⟩
  | rid :: ids, m, tid, x, h1, h2, h3 => by
      rw [List.foldl_cons]
      have hstep := remove_track_stable m rid tid x h1 h2 h3
      exact foldl_remove_stable ids (m.remove_track rid) tid x hstep.1 hstep.2.1 hstep.2.2

theorem foldl_remove_evict :
    ∀ (ids : List ℕ) (m : TrackManager) (tid : ℕ) (t : VehicleTrack),
      tid ∈ ids → lookupA m.tracks tid = some t →
      lookupA (ids.foldl TrackManager.remove_track m).tracks tid = none ∧
      lookupA (ids.foldl TrackManager.remove_track m).track_ages tid = none ∧
      { t with is_active := false } ∈ (ids.foldl TrackManager.remove_track m).completed_tracks
  | [], _, _, _, hmem, _ => absurd hmem (List.not_mem_nil _)
  | rid :: ids, m, tid, t, hmem, hl => by
      rw [List.foldl_cons]
      by_cases h : rid = tid
      · subst h
        have hev := remove_track_evicts m rid t hl
        exact foldl_remove_stable ids _ rid _ hev.1 hev.2.1 hev.2.2
      · have hne : tid ≠ rid := fun hh => h hh.symm
        have hmem' : tid ∈ ids := by
          rcases List.mem_cons.mp hmem with h1 | h1
          · exact absurd h1 hne
          · exact h1
        have hstep := remove_track_lookup_ne m rid tid hne
        exact foldl_remove_evict ids (m.remove_track rid) tid t hmem' (hstep.1.trans hl)

theorem foldl_remove_nodup :
    ∀ (ids : List ℕ) (m : TrackManager),
      (keysA m.tracks).Nodup →
      (keysA (ids.foldl TrackManager.remove_track m).tracks).Nodup
  | [], _, h => h
  | rid :: ids, m, h => by
      rw [List.foldl_cons]
      exact foldl_remove_nodup ids (m.remove_track rid) (remove_track_nodup m rid h)

theorem agePhaseAux_spec (det : List ℕ) (ma : ℕ) :
    ∀ (keys : List ℕ) (acc : List (ℕ × ℕ) × List ℕ) (tid a : ℕ),
      keys.Nodup → tid ∉ det → lookupA acc.1 tid = some a →
      ((tid ∈ keys →
        lookupA (agePhaseAux det ma keys acc).1 tid = some (a + 1) ∧
        (tid ∈ (agePhaseAux det ma keys acc).2 ↔ (tid ∈ acc.2 ∨ ma < a + 1))) ∧
       (tid ∉ keys →
        lookupA (agePhaseAux det ma keys acc).1 tid = some a ∧
        (tid ∈ (agePhaseAux det ma keys acc).2 ↔ tid ∈ acc.2)))
  | [], acc, tid, a, _, _, hl => by
      constructor
      · intro hmem
        exact absurd hmem (List.not_mem_nil _)
      · intro _
        exact ⟨hl, Iff.rfl⟩
  | k :: ks, acc, tid, a, hnd, hdet, hl => by
      have hndks : ks.Nodup := (List.nodup_cons.mp hnd).2
      have hknotks : k ∉ ks := (List.nodup_cons.mp hnd).1
      rw [agePhaseAux]
      by_cases hk : tid = k
      · subst hk
        rw [if_neg hdet, hl]
        simp only [Option.getD_some]
        have hl' : lookupA (setA acc.1 tid (a + 1)) tid = some (a + 1) :=
          lookupA_setA_self _ _ _
        have hrec := agePhaseAux_spec det ma ks
          (setA acc.1 tid (a + 1), if ma < a + 1 then acc.2 ++ [tid] else acc.2)
          tid (a + 1) hndks hdet hl'
        have hres := hrec.2 hknotks
        constructor
        · intro _
          refine ⟨hres.1, ?_⟩
          rw [hres.2]
          by_cases hma : ma < a + 1
          · rw [if_pos hma]
            simp [List.mem_append, hma]
          · rw [if_neg hma]
            simp [hma]
        · intro hmem
          exact absurd (List.mem_cons_self tid ks) hmem
      · by_cases hkd : k ∈ det
        · rw [if_pos hkd]
          have hrec := agePhaseAux_spec det ma ks acc tid a hndks hdet hl
          constructor
          · intro hmem
            have htid : tid ∈ ks := by
              rcases List.mem_cons.mp hmem with h1 | h1
              · exact absurd h1 hk
              · exact h1
            exact hrec.1 htid
          · intro hmem
            exact hrec.2 (fun hin => hmem (List.mem_cons_of_mem _ hin))
        · rw [if_neg hkd]
          have hl' : lookupA (setA acc.1 k ((lookupA acc.1 k).getD 0 + 1)) tid = some a := by
            rw [lookupA_setA_ne _ _ _ _ hk]
            exact hl
          have hmem' :
              (tid ∈ (if ma < (lookupA acc.1 k).getD 0 + 1 then acc.2 ++ [k] else acc.2)) ↔
                tid ∈ acc.2 := by
            by_cases hma : ma < (lookupA acc.1 k).getD 0 + 1
            · rw [if_pos hma]
              simp [List.mem_append, hk]
            · rw [if_neg hma]
          have hrec := agePhaseAux_spec det ma ks
            (setA acc.1 k ((lookupA acc.1 k).getD 0 + 1),
             if ma < (lookupA acc.1 k).getD 0 + 1 then acc.2 ++ [k] else acc.2)
            tid a hndks hdet hl'
          constructor
          · intro hmem
            have htid : tid ∈ ks := by
              rcases List.mem_cons.mp hmem with h1 | h1
              · exact absurd h1 hk
              · exact h1
            have hout := hrec.1 htid
            refine ⟨hout.1, ?_⟩
            rw [hout.2, hmem']
          · intro hmem
            have htid : tid ∉ ks := fun hin => hmem (List.mem_cons_of_mem _ hin)
            have hout := hrec.2 htid
            refine ⟨hout.1, ?_⟩
            rw [hout.2, hmem']

theorem applyTMUpdates_nil (m : TrackManager) : applyTMUpdates [] m = m := rfl

theorem applyTMUpdates_cons (u : List Detection × ℕ) (us : List (List Detection × ℕ))
    (m : TrackManager) :
    applyTMUpdates (u :: us) m = applyTMUpdates us (m.update u.1 u.2) := rfl

theorem applyTMUpdates_append (us₁ us₂ : List (List Detection × ℕ)) (m : TrackManager) :
    applyTMUpdates (us₁ ++ us₂) m = applyTMUpdates us₂ (applyTMUpdates us₁ m) := by
  unfold applyTMUpdates
  rw [List.foldl_append]

/-- What a single `TrackManager.update` does to one track that is present with
miss-age `a` and is not among this frame's detections: its age becomes
`a + 1`, and it is evicted (from both maps, archived inactive) exactly when
`a + 1` exceeds `max_age`. -/
theorem update_miss_step (m : TrackManager) (dets : List Detection) (f tid : ℕ)
    (t : VehicleTrack) (a : ℕ)
    (hnd : (keysA m.tracks).Nodup) (ht : lookupA m.tracks tid = some t)
    (ha : lookupA m.track_ages tid = some a)
    (hm : tid ∉ dets.map Detection.track_id) :
    (keysA (m.update dets f).tracks).Nodup ∧
    (m.update dets f).max_age = m.max_age ∧
    (a + 1 ≤ m.max_age →
      lookupA (m.update dets f).tracks tid = some t ∧
      lookupA (m.update dets f).track_ages tid = some (a + 1)) ∧
    (m.max_age < a + 1 →
      lookupA (m.update dets f).tracks tid = none ∧
      lookupA (m.update dets f).track_ages tid = none ∧
      { t with is_active := false } ∈ (m.update dets f).completed_tracks) := by
  have hconst := foldl_process_const f dets m
  have hlk := foldl_process_lookup_ne f dets m tid hm
  have hnd1 := foldl_process_nodup f dets m hnd
  set m1 := dets.foldl (fun m d => m.processDetection f d) m with hm1
  have hlt : lookupA m1.tracks tid = some t := hlk.1.trans ht
  have hla : lookupA m1.track_ages tid = some a := hlk.2.trans ha
  have htkeys : tid ∈ keysA m1.tracks := by
    by_contra hno
    have hnone := (lookupA_eq_none_iff m1.tracks tid).mpr hno
    rw [hlt] at hnone
    exact Option.noConfusion hnone
  have hspec := agePhaseAux_spec (dets.map Detection.track_id) m1.max_age
    (keysA m1.tracks) (m1.track_ages, []) tid a hnd1 hm hla
  have hout := hspec.1 htkeys
  set aged := agePhaseAux (dets.map Detection.track_id) m1.max_age
    (keysA m1.tracks) (m1.track_ages, []) with haged
  have hrem : tid ∈ aged.2 ↔ m1.max_age < a + 1 := by
    rw [hout.2]
    simp
  have hupdate : m.update dets f =
      aged.2.foldl TrackManager.remove_track { m1 with track_ages := aged.1 } := rfl
  rw [hupdate]
  set m2 : TrackManager := { m1 with track_ages := aged.1 } with hm2
  have hm2tracks : m2.tracks = m1.tracks := rfl
  have hm2ages : m2.track_ages = aged.1 := rfl
  have hma : m1.max_age = m.max_age := hconst.1
  refine ⟨?_, ?_, ?_, ?_⟩
  · exact foldl_remove_nodup aged.2 m2 (by rw [hm2tracks]; exact hnd1)
  · rw [(foldl_remove_const aged.2 m2).1]
    exact hma
  · intro hle
    have hnotrem : tid ∉ aged.2 := by
      rw [hrem, hma]
      omega
    have hpre := foldl_remove_lookup_ne aged.2 m2 tid hnotrem
    constructor
    · rw [hpre.1, hm2tracks]
      exact hlt
    · rw [hpre.2, hm2ages]
      exact hout.1
  · intro hgt
    have hinrem : tid ∈ aged.2 := hrem.mpr (by omega)
    exact foldl_remove_evict aged.2 m2 tid t hinrem (by rw [hm2tracks]; exact hlt)

/-- Along any run of consecutive miss-updates that stays within `max_age`, the
track survives unchanged and its miss-age counts the misses. -/
theorem misses_keep :
    ∀ (us : List (List Detection × ℕ)) (m : TrackManager) (tid : ℕ)
      (t : VehicleTrack) (a : ℕ),
      (keysA m.tracks).Nodup → lookupA m.tracks tid = some t →
      lookupA m.track_ages tid = some a →
      (∀ u ∈ us, tid ∉ u.1.map Detection.track_id) →
      a + us.length ≤ m.max_age →
      (keysA (applyTMUpdates us m).tracks).Nodup ∧
      (applyTMUpdates us m).max_age = m.max_age ∧
      lookupA (applyTMUpdates us m).tracks tid = some t ∧
      lookupA (applyTMUpdates us m).track_ages tid = some (a + us.length)
  | [], m, tid, t, a, hnd, ht, ha, _, _ => ⟨hnd, rfl, ht, by simpa using ha⟩
  | u :: us, m, tid, t, a, hnd, ht, ha, hmiss, hlen => by
      have hstep := update_miss_step m u.1 u.2 tid t a hnd ht ha
        (hmiss u (List.mem_cons_self _ _))
      have h1 : a + 1 ≤ m.max_age := by
        rw [List.length_cons] at hlen
        omega
      have hpres := hstep.2.2.1 h1
      rw [applyTMUpdates_cons]
      have hrec := misses_keep us (m.update u.1 u.2) tid t (a + 1) hstep.1 hpres.1 hpres.2
        (fun v hv => hmiss v (List.mem_cons_of_mem _ hv))
        (by rw [hstep.2.1]; rw [List.length_cons] at hlen; omega)
      refine ⟨hrec.1, hrec.2.1.trans hstep.2.1, hrec.2.2.1, ?_⟩
      rw [hrec.2.2.2, List.length_cons]
      congr 1
      omega

/-! ## Track history lengths (claim C1 infrastructure) -/

theorem applyTrackUpdates_cons (u : TrackUpd) (us : List TrackUpd) (t : VehicleTrack) :
    applyTrackUpdates (u :: us) t =
      applyTrackUpdates us (t.update u.bbox u.frame_idx u.class_id u.class_name) := rfl

/-- One `VehicleTrack.update` on a track whose histories have the lengths they
have after `N` updates: the centroid history grows to `min (N+1) H` and the
speed history to `min N H` (for `H ≥ 2`). -/
theorem update_lengths (t : VehicleTrack) (bbox : Bbox) (f : ℕ)
    (cid : Option ℤ) (cname : Option String) (H N : ℕ)
    (hH : t.max_history = H) (h2 : 2 ≤ H)
    (hc : t.centroids.length = min N H) (hs : t.speeds_px.length = min (N - 1) H) :
    (t.update bbox f cid cname).max_history = H ∧
    (t.update bbox f cid cname).centroids.length = min (N + 1) H ∧
    (t.update bbox f cid cname).speeds_px.length = min N H := by
  have hclen : (dequeAppend t.max_history t.centroids (compute_centroid bbox)).length =
      min (N + 1) H := by
    rw [hH, length_dequeAppend, hc]
    split_ifs <;> omega
  simp only [VehicleTrack.update]
  split_ifs with hcond
  · dsimp only at hcond ⊢
    rw [hclen] at hcond
    refine ⟨hH, hclen, ?_⟩
    rw [hH, length_dequeAppend, hs]
    split_ifs <;> omega
  · dsimp only at hcond ⊢
    rw [hclen] at hcond
    refine ⟨hH, hclen, ?_⟩
    rw [hs]
    omega

/-- Closed form for the history lengths after any run of updates. -/
theorem applyTrackUpdates_lengths (H : ℕ) (h2 : 2 ≤ H) :
    ∀ (us : List TrackUpd) (t : VehicleTrack) (N : ℕ),
      t.max_history = H → t.centroids.length = min N H →
      t.speeds_px.length = min (N - 1) H →
      (applyTrackUpdates us t).max_history = H ∧
      (applyTrackUpdates us t).centroids.length = min (N + us.length) H ∧
      (applyTrackUpdates us t).speeds_px.length = min (N + us.length - 1) H
  | [], t, N, hH, hc, hs => ⟨hH, by simpa using hc, by simpa using hs⟩
  | u :: us, t, N, hH, hc, hs => by
      rw [applyTrackUpdates_cons]
      have hstep := update_lengths t u.bbox u.frame_idx u.class_id u.class_name H N hH h2 hc hs
      have hs' : (t.update u.bbox u.frame_idx u.class_id u.class_name).speeds_px.length =
          min (N + 1 - 1) H := by
        rw [hstep.2.2]
        congr 1
      have hrec := applyTrackUpdates_lengths H h2 us
        (t.update u.bbox u.frame_idx u.class_id u.class_name) (N + 1)
        hstep.1 hstep.2.1 hs'
      refine ⟨hrec.1, ?_, ?_⟩
      · rw [hrec.2.1, List.length_cons]
        congr 1
        omega
      · rw [hrec.2.2, List.length_cons]
        congr 1
        omega

/-! ## Claim C3 -/

/-- Claim C3 counterexample: constructing either speed estimator with
`fps = -1` — a value `≤ 0` that the claim says must be rejected — succeeds. -/
theorem negative_fps_accepted_counterexample :
    ((-1 : ℝ) ≤ 0) ∧
    (PixelSpeedEstimator.init (-1) 20).isSome = true ∧
    (HomographySpeedEstimator.init (-1)).isSome = true := by
  have h : ¬ ((-1 : ℝ) = 0) := by norm_num
  refine ⟨by norm_num, ?_, ?_⟩ <;>
    simp [PixelSpeedEstimator.init, HomographySpeedEstimator.init,
      SpeedEstimator.init, h]

/-- Claim C3 (amended): construction of either estimator fails only at
`fps = 0` (where `1.0 / fps` raises `ZeroDivisionError`); every nonzero
`fps` — including every negative one — constructs successfully, so in
particular every `fps > 0` does. -/
theorem speed_estimator_fps_validation (fps ppm : ℝ) :
    ((PixelSpeedEstimator.init fps ppm).isSome = true ↔ fps ≠ 0) ∧
    ((HomographySpeedEstimator.init fps).isSome = true ↔ fps ≠ 0) := by
  by_cases h : fps = 0 <;>
    simp [PixelSpeedEstimator.init, HomographySpeedEstimator.init,
      SpeedEstimator.init, h]

theorem speed_estimator_fps_validation_witness :
    (PixelSpeedEstimator.init 30 20).isSome = true ∧
    (HomographySpeedEstimator.init 30).isSome = true := by
  constructor
  · exact (speed_estimator_fps_validation 30 20).1.mpr (by norm_num)
  · exact (speed_estimator_fps_validation 30 20).2.mpr (by norm_num)

/-! ## Claim C5 -/

/-- Claim C5 counterexample: a weight set whose sum is `1.000001` — not `1.0` —
is accepted by the constructor, because the validation is `np.isclose` with
tolerance `1e-8 + 1e-5`, not exact equality. -/
theorem weight_sum_tolerance_counterexample :
    ((0.25 : ℝ) + 0.25 + 0.25 + 0.250001 ≠ 1) ∧
    (CongestionDetector.init (640 * 480) 50 100 2 0.25 0.25 0.25 0.250001).isSome = true := by
  constructor
  · norm_num
  · have hcl : npIsClose ((0.25 : ℝ) + 0.25 + 0.25 + 0.250001) 1 := by
      unfold npIsClose
      have h1 : (0.25 : ℝ) + 0.25 + 0.25 + 0.250001 - 1 = 0.000001 := by norm_num
      rw [h1, abs_of_pos (show (0 : ℝ) < 0.000001 by norm_num), abs_one]
      norm_num
    simp only [CongestionDetector.init]
    rw [if_pos hcl]
    rfl

/-- Claim C5 (amended): the constructor accepts a weight set exactly when
`np.isclose(sum, 1.0)` holds, i.e. when the sum is within `1e-8 + 1e-5` of
`1.0`; accepted weights are stored verbatim (never renormalized); the claim's
example `0.4 + 0.4 + 0.4 + 0.1 = 1.3` is rejected, and any sum of exactly
`1.0` is accepted — but near-misses inside the tolerance are accepted too, so
"fails whenever the sum is not 1.0" is false as stated. -/
theorem congestion_weights_validation (roi : ℝ) (mv : ℕ) (ms st w1 w2 w3 w4 : ℝ) :
    ((CongestionDetector.init roi mv ms st w1 w2 w3 w4).isSome = true ↔
      npIsClose (w1 + w2 + w3 + w4) 1) ∧
    (∀ d, CongestionDetector.init roi mv ms st w1 w2 w3 w4 = some d →
      d.density_weight = w1 ∧ d.speed_weight = w2 ∧ d.flow_weight = w3 ∧
        d.queue_weight = w4) ∧
    (CongestionDetector.init (640 * 480) 50 100 2 0.4 0.4 0.4 0.1 = none) := by
  refine ⟨?_, ?_, ?_⟩
  · by_cases h : npIsClose (w1 + w2 + w3 + w4) 1 <;>
      simp [CongestionDetector.init, h]
  · intro d hd
    simp only [CongestionDetector.init] at hd
    by_cases h : npIsClose (w1 + w2 + w3 + w4) 1
    · rw [if_pos h] at hd
      have := Option.some.inj hd
      rw [← this]
      exact ⟨rfl, rfl, rfl, rfl⟩
    · rw [if_neg h] at hd
      exact absurd hd (by simp)
  · have hnot : ¬ npIsClose ((0.4 : ℝ) + 0.4 + 0.4 + 0.1) 1 := by
      unfold npIsClose
      have h1 : (0.4 : ℝ) + 0.4 + 0.4 + 0.1 - 1 = 0.3 := by norm_num
      rw [h1, abs_of_pos (show (0 : ℝ) < 0.3 by norm_num), abs_one]
      norm_num
    simp [CongestionDetector.init, hnot]

theorem congestion_weights_validation_witness :
    (CongestionDetector.init (640 * 480) 50 100 2 0.35 0.35 0.20 0.10).isSome = true ∧
    defaultDetector.density_weight = 0.35 := by
  have hcl : npIsClose ((0.35 : ℝ) + 0.35 + 0.20 + 0.10) 1 := by
    unfold npIsClose
    have h1 : (0.35 : ℝ) + 0.35 + 0.20 + 0.10 - 1 = 0 := by norm_num
    rw [h1, abs_zero, abs_one]
    norm_num
  have hsome : CongestionDetector.init (640 * 480) 50 100 2 0.35 0.35 0.20 0.10 =
      some defaultDetector := by
    simp only [CongestionDetector.init]
    rw [if_pos hcl]
    rfl
  constructor
  · exact (congestion_weights_validation (640 * 480) 50 100 2 0.35 0.35 0.20 0.10).1.mpr hcl
  · exact ((congestion_weights_validation (640 * 480) 50 100 2 0.35 0.35 0.20 0.10).2.1
      defaultDetector hsome).1

/-! ## Claim C6 -/

theorem pyFloatDiv_of_ne (a b : ℝ) (h : b ≠ 0) : pyFloatDiv a b = some (a / b) := by
  simp [pyFloatDiv, h]

theorem pyFloatDiv_of_eq_zero (a b : ℝ) (h : b = 0) : pyFloatDiv a b = none := by
  simp [pyFloatDiv, h]

/-- Claim C6 counterexample: with the default `timestamp=None` and `fps = 0`,
`analyze` on an empty track list raises `ZeroDivisionError` while evaluating
the fallback timestamp `frame_idx / fps` (`timestamp or (frame_idx / fps)`,
metrics.py line 293), so the empty-track path returns no snapshot at all —
the claim's quantification over every fps, with the path never an error, is
false at `fps = 0`. -/
theorem analyze_empty_fps_zero_counterexample :
    (defaultDetector.analyze [] 5 0 none).1 = none := by
  have h : pyOrFloat none (pyFloatDiv ((5 : ℕ) : ℝ) 0) = none := by
    simp [pyOrFloat, pyFloatDiv]
  simp only [CongestionDetector.analyze]
  rw [if_pos (show ([] : List VehicleTrack).length = 0 from rfl), h]

/-- Claim C6 (amended): `analyze` on an empty track list returns a snapshot
with every count and score zero and level `FREE_FLOW` whenever the timestamp
expression does not raise — that is, for every `fps ≠ 0`, and also for any
fps when a non-zero timestamp is supplied; at `fps = 0` with a falsy
timestamp (`None` or `0.0`) the call instead raises `ZeroDivisionError`
computing the fallback timestamp. -/
theorem analyze_empty_returns_zero (d : CongestionDetector) (frame_idx : ℕ)
    (fps : ℝ) (ts : Option ℝ) :
    ((fps = 0 ∧ (ts = none ∨ ts = some 0)) →
      (d.analyze [] frame_idx fps ts).1 = none) ∧
    ((fps ≠ 0 ∨ (∃ v, ts = some v ∧ v ≠ 0)) →
      ∃ mtr, (d.analyze [] frame_idx fps ts).1 = some mtr ∧
        mtr.vehicle_count = 0 ∧ mtr.stopped_count = 0 ∧ mtr.average_speed = 0 ∧
        mtr.occupancy = 0 ∧ mtr.flow_rate = 0 ∧ mtr.queue_length = 0 ∧
        mtr.density_score = 0 ∧ mtr.speed_score = 0 ∧ mtr.flow_score = 0 ∧
        mtr.congestion_score = 0 ∧
        mtr.congestion_level = CongestionLevel.FREE_FLOW) := by
  constructor
  · rintro ⟨hfps, hts⟩
    have h : pyOrFloat ts (pyFloatDiv (frame_idx : ℝ) fps) = none := by
      rcases hts with rfl | rfl <;> simp [pyOrFloat, pyFloatDiv, hfps]
    simp only [CongestionDetector.analyze]
    rw [if_pos (show ([] : List VehicleTrack).length = 0 from rfl), h]
  · intro hok
    have h : ∃ tsv, pyOrFloat ts (pyFloatDiv (frame_idx : ℝ) fps) = some tsv := by
      rcases hok with hfps | ⟨v, rfl, hv⟩
      · rcases ts with _ | v
        · exact ⟨(frame_idx : ℝ) / fps, by simp [pyOrFloat, pyFloatDiv, hfps]⟩
        · by_cases hv : v = 0
          · exact ⟨(frame_idx : ℝ) / fps, by simp [pyOrFloat, pyFloatDiv, hfps, hv]⟩
          · exact ⟨v, by simp [pyOrFloat, hv]⟩
      · exact ⟨v, by simp [pyOrFloat, hv]⟩
    obtain ⟨tsv, htsv⟩ := h
    have heq : (d.analyze [] frame_idx fps ts).1 = some
        { vehicle_count := 0, occupancy := 0, average_speed := 0, stopped_count := 0,
          flow_rate := 0, queue_length := 0, density_score := 0, speed_score := 0,
          flow_score := 0, congestion_score := 0,
          congestion_level := CongestionLevel.FREE_FLOW,
          frame_idx := frame_idx, timestamp := tsv, roi_area := d.roi_area } := by
      simp only [CongestionDetector.analyze]
      rw [if_pos (show ([] : List VehicleTrack).length = 0 from rfl), htsv]
    exact ⟨_, heq, rfl, rfl, rfl, rfl, rfl, rfl, rfl, rfl, rfl, rfl, rfl⟩

theorem analyze_empty_returns_zero_witness :
    ∃ mtr, (defaultDetector.analyze [] 0 30 none).1 = some mtr ∧
      mtr.vehicle_count = 0 ∧
      mtr.congestion_level = CongestionLevel.FREE_FLOW := by
  obtain ⟨mtr, h1, h2, _, _, _, _, _, _, _, _, _, h11⟩ :=
    (analyze_empty_returns_zero defaultDetector 0 30 none).2 (Or.inl (by norm_num))
  exact ⟨mtr, h1, h2, h11⟩

/-! ## Claim C7 -/

/-- Claim C7: with the detector's configured capacities positive (as every
default configuration has them) and non-negative input magnitudes — a stopped
count bounded by the vehicle count — each of the four sub-score functions
returns a value in `[0, 1]`. -/
theorem subscores_in_unit_interval (d : CongestionDetector)
    (vehicle_count stopped_count : ℕ)
    (total_bbox_area average_speed flow_rate expected_flow : ℝ)
    (hmv : 0 < d.max_vehicles) (hroi : 0 < d.roi_area) (hms : 0 < d.max_speed)
    (hef : 0 < expected_flow) (harea : 0 ≤ total_bbox_area)
    (hspeed : 0 ≤ average_speed) (hflow : 0 ≤ flow_rate)
    (hsc : stopped_count ≤ vehicle_count) :
    (0 ≤ d.compute_density_score vehicle_count total_bbox_area ∧
      d.compute_density_score vehicle_count total_bbox_area ≤ 1) ∧
    (0 ≤ d.compute_speed_score average_speed ∧
      d.compute_speed_score average_speed ≤ 1) ∧
    (0 ≤ d.compute_flow_score flow_rate expected_flow ∧
      d.compute_flow_score flow_rate expected_flow ≤ 1) ∧
    (0 ≤ d.compute_queue_score stopped_count vehicle_count ∧
      d.compute_queue_score stopped_count vehicle_count ≤ 1) := by
  refine ⟨?_, ?_, ?_, ?_⟩
  · simp only [CongestionDetector.compute_density_score]
    have h1 : (0 : ℝ) ≤ (vehicle_count : ℝ) / (d.max_vehicles : ℝ) :=
      div_nonneg (Nat.cast_nonneg _) (Nat.cast_nonneg _)
    have h2 : (0 : ℝ) ≤ total_bbox_area / d.roi_area :=
      div_nonneg harea (le_of_lt hroi)
    have h3 : min ((vehicle_count : ℝ) / (d.max_vehicles : ℝ)) 1 ≤ 1 := min_le_right _ _
    have h4 : min (total_bbox_area / d.roi_area) 1 ≤ 1 := min_le_right _ _
    have h5 : (0 : ℝ) ≤ min ((vehicle_count : ℝ) / (d.max_vehicles : ℝ)) 1 :=
      le_min h1 zero_le_one
    have h6 : (0 : ℝ) ≤ min (total_bbox_area / d.roi_area) 1 :=
      le_min h2 zero_le_one
    constructor <;> linarith
  · simp only [CongestionDetector.compute_speed_score]
    split_ifs with h
    · norm_num
    · have h1 : (0 : ℝ) ≤ average_speed / d.max_speed := div_nonneg hspeed hms.le
      have h3 := min_le_right (average_speed / d.max_speed) (1 : ℝ)
      have h5 : (0 : ℝ) ≤ min (average_speed / d.max_speed) 1 := le_min h1 zero_le_one
      constructor <;> linarith
  · simp only [CongestionDetector.compute_flow_score]
    split_ifs with h
    · norm_num
    · have h1 : (0 : ℝ) ≤ flow_rate / expected_flow := div_nonneg hflow hef.le
      have h3 := min_le_right (flow_rate / expected_flow) (1 : ℝ)
      have h5 : (0 : ℝ) ≤ min (flow_rate / expected_flow) 1 := le_min h1 zero_le_one
      constructor <;> linarith
  · simp only [CongestionDetector.compute_queue_score]
    split_ifs with h
    · norm_num
    · have hpos : (0 : ℝ) < (vehicle_count : ℝ) :=
        Nat.cast_pos.mpr (Nat.pos_of_ne_zero h)
      constructor
      · exact div_nonneg (Nat.cast_nonneg _) (le_of_lt hpos)
      · rw [div_le_one hpos]
        exact_mod_cast hsc

theorem subscores_in_unit_interval_witness :
    (0 ≤ defaultDetector.compute_density_score 10 100 ∧
      defaultDetector.compute_density_score 10 100 ≤ 1) ∧
    (0 ≤ defaultDetector.compute_queue_score 3 10 ∧
      defaultDetector.compute_queue_score 3 10 ≤ 1) := by
  have h := subscores_in_unit_interval defaultDetector 10 3 100 5 12 30
    (by norm_num [defaultDetector]) (by norm_num [defaultDetector])
    (by norm_num [defaultDetector]) (by norm_num) (by norm_num) (by norm_num)
    (by norm_num) (by norm_num)
  exact ⟨h.1, h.2.2.2⟩

/-! ## Claim C8 -/

theorem classifyFrom_cons (level : CongestionLevel) (lo hi : ℝ)
    (rest : List (CongestionLevel × ℝ × ℝ)) (s : ℝ) :
    classifyFrom ((level, lo, hi) :: rest) s =
      if lo ≤ s ∧ s < hi then level else classifyFrom rest s := rfl

theorem classifyFrom_above_all (ths : List (CongestionLevel × ℝ × ℝ)) (s : ℝ)
    (h : ∀ b ∈ ths, b.2.2 ≤ s) : classifyFrom ths s = CongestionLevel.TRAFFIC_JAM := by
  induction ths with
  | nil => rfl
  | cons b rest ih =>
      rcases b with ⟨level, lo, hi⟩
      rw [classifyFrom_cons]
      have hhi : hi ≤ s := h (level, lo, hi) (List.mem_cons_self _ _)
      rw [if_neg (fun hc => absurd hc.2 (not_lt.mpr hhi))]
      exact ih (fun b hb => h b (List.mem_cons_of_mem _ hb))

/-- Claim C8: a congestion score at or above every configured upper bound
classifies as the top level (`TRAFFIC_JAM`) — in particular a score of
exactly `1.0` under the default bands — and a score inside one of the default
half-open bands classifies as that band's level. -/
theorem classify_congestion_bands :
    (∀ (d : CongestionDetector) (s : ℝ),
      (∀ b ∈ d.thresholds, b.2.2 ≤ s) →
        d.classify_congestion s = CongestionLevel.TRAFFIC_JAM) ∧
    (∀ d : CongestionDetector, d.thresholds = defaultThresholds →
      d.classify_congestion 1 = CongestionLevel.TRAFFIC_JAM) ∧
    (∀ (d : CongestionDetector) (s : ℝ) (level : CongestionLevel) (lo hi : ℝ),
      d.thresholds = defaultThresholds → (level, lo, hi) ∈ defaultThresholds →
      lo ≤ s → s < hi → d.classify_congestion s = level) := by
  refine ⟨?_, ?_, ?_⟩
  · intro d s h
    exact classifyFrom_above_all d.thresholds s h
  · intro d h
    unfold CongestionDetector.classify_congestion
    rw [h]
    apply classifyFrom_above_all
    intro b hb
    simp only [defaultThresholds, List.mem_cons, List.not_mem_nil, or_false] at hb
    rcases hb with rfl | rfl | rfl | rfl | rfl <;> norm_num
  · intro d s level lo hi hth hmem hlo hhi
    unfold CongestionDetector.classify_congestion
    rw [hth]
    simp only [defaultThresholds, List.mem_cons, List.not_mem_nil, or_false,
      Prod.mk.injEq] at hmem
    rcases hmem with ⟨rfl, rfl, rfl⟩ | ⟨rfl, rfl, rfl⟩ | ⟨rfl, rfl, rfl⟩ |
      ⟨rfl, rfl, rfl⟩ | ⟨rfl, rfl, rfl⟩ <;>
      simp only [defaultThresholds, classifyFrom_cons]
    · rw [if_pos ⟨hlo, hhi⟩]
    · rw [if_neg (fun hc => absurd hc.2 (not_lt.mpr (by linarith))),
        if_pos ⟨hlo, hhi⟩]
    · rw [if_neg (fun hc => absurd hc.2 (not_lt.mpr (by linarith))),
        if_neg (fun hc => absurd hc.2 (not_lt.mpr (by linarith))),
        if_pos ⟨hlo, hhi⟩]
    · rw [if_neg (fun hc => absurd hc.2 (not_lt.mpr (by linarith))),
        if_neg (fun hc => absurd hc.2 (not_lt.mpr (by linarith))),
        if_neg (fun hc => absurd hc.2 (not_lt.mpr (by linarith))),
        if_pos ⟨hlo, hhi⟩]
    · rw [if_neg (fun hc => absurd hc.2 (not_lt.mpr (by linarith))),
        if_neg (fun hc => absurd hc.2 (not_lt.mpr (by linarith))),
        if_neg (fun hc => absurd hc.2 (not_lt.mpr (by linarith))),
        if_neg (fun hc => absurd hc.2 (not_lt.mpr (by linarith))),
        if_pos ⟨hlo, hhi⟩]

theorem classify_congestion_bands_witness :
    defaultDetector.classify_congestion 1 = CongestionLevel.TRAFFIC_JAM ∧
    defaultDetector.classify_congestion 0.5 = CongestionLevel.MODERATE := by
  constructor
  · exact classify_congestion_bands.2.1 defaultDetector rfl
  · exact classify_congestion_bands.2.2 defaultDetector 0.5 CongestionLevel.MODERATE
      0.4 0.6 rfl (by simp [defaultThresholds]) (by norm_num) (by norm_num)

/-! ## Claim C10 -/

/-- Claim C10 counterexample: on a detector with `roi_area = 0` whose flow
window holds 1 frame, a call with a non-empty track list raises
`ZeroDivisionError` computing `total_bbox_area / self.roi_area` (metrics.py
line 319) *before* the counter mutation at line 323: no metrics are produced
and `flow_window_frames` stays `1` — neither stepped to `2` nor reset to `0` —
so the call does not modify the flow-window counters as claimed. -/
theorem analyze_zero_roi_counterexample :
    (zeroRoiDetector.analyze [sampleTrack] 0 30 none).1 = none ∧
    (zeroRoiDetector.analyze [sampleTrack] 0 30 none).2.flow_window_frames = 1 ∧
    zeroRoiDetector.flow_window_frames = 1 := by
  have hstate : zeroRoiDetector.analyze [sampleTrack] 0 30 none =
      (none, zeroRoiDetector) := by
    simp only [CongestionDetector.analyze]
    rw [if_neg (by simp : ¬ (([sampleTrack]).length = 0)),
      pyFloatDiv_of_eq_zero _ _ (rfl : zeroRoiDetector.roi_area = 0)]
  refine ⟨?_, ?_, rfl⟩
  · rw [hstate]
  · rw [hstate]
    rfl

/-- Claim C10 (amended): `analyze` with an empty track list leaves the
detector state completely unchanged (also when it raises computing the
timestamp).  With a non-empty list and `roi_area ≠ 0` it changes at most the
two flow-window counters — `flow_window_frames` stepping by one or resetting
to zero together with `vehicle_entry_count` — and no other field: weights,
thresholds, `roi_area`, `max_vehicles`, `max_speed`, `stopped_threshold`,
`flow_window_duration` all keep their values.  With a non-empty list and
`roi_area = 0` the call raises `ZeroDivisionError` at the occupancy division,
before the counter mutation, producing no metrics and leaving the whole
detector state unchanged. -/
theorem analyze_state_effect (d : CongestionDetector) (tracks : List VehicleTrack)
    (frame_idx : ℕ) (fps : ℝ) (ts : Option ℝ) :
    (tracks = [] → (d.analyze tracks frame_idx fps ts).2 = d) ∧
    (tracks ≠ [] → d.roi_area = 0 →
      (d.analyze tracks frame_idx fps ts).1 = none ∧
      (d.analyze tracks frame_idx fps ts).2 = d) ∧
    (tracks ≠ [] → d.roi_area ≠ 0 →
      ((d.analyze tracks frame_idx fps ts).2.roi_area = d.roi_area ∧
       (d.analyze tracks frame_idx fps ts).2.max_vehicles = d.max_vehicles ∧
       (d.analyze tracks frame_idx fps ts).2.max_speed = d.max_speed ∧
       (d.analyze tracks frame_idx fps ts).2.stopped_threshold = d.stopped_threshold ∧
       (d.analyze tracks frame_idx fps ts).2.density_weight = d.density_weight ∧
       (d.analyze tracks frame_idx fps ts).2.speed_weight = d.speed_weight ∧
       (d.analyze tracks frame_idx fps ts).2.flow_weight = d.flow_weight ∧
       (d.analyze tracks frame_idx fps ts).2.queue_weight = d.queue_weight ∧
       (d.analyze tracks frame_idx fps ts).2.flow_window_duration = d.flow_window_duration ∧
       (d.analyze tracks frame_idx fps ts).2.thresholds = d.thresholds) ∧
      (((d.analyze tracks frame_idx fps ts).2.flow_window_frames = d.flow_window_frames + 1 ∧
        (d.analyze tracks frame_idx fps ts).2.vehicle_entry_count = d.vehicle_entry_count) ∨
       ((d.analyze tracks frame_idx fps ts).2.flow_window_frames = 0 ∧
        (d.analyze tracks frame_idx fps ts).2.vehicle_entry_count = 0))) := by
  refine ⟨?_, ?_, ?_⟩
  · rintro rfl
    simp only [CongestionDetector.analyze]
    rw [if_pos (show ([] : List VehicleTrack).length = 0 from rfl)]
    cases h : pyOrFloat ts (pyFloatDiv (frame_idx : ℝ) fps) with
    | none => rfl
    | some tsv => rfl
  · intro hne hroi
    rcases tracks with _ | ⟨t, rest⟩
    · exact absurd rfl hne
    · simp only [CongestionDetector.analyze]
      rw [if_neg (by simp : ¬ ((t :: rest).length = 0)),
        pyFloatDiv_of_eq_zero _ _ hroi]
      exact ⟨rfl, rfl⟩
  · intro hne hroi
    rcases tracks with _ | ⟨t, rest⟩
    · exact absurd rfl hne
    · have hsnd : (d.analyze (t :: rest) frame_idx fps ts).2 =
          { d with
            flow_window_frames :=
              (if ((d.flow_window_frames + 1 : ℕ) : ℝ) ≥ fps * d.flow_window_duration
               then ((0 : ℕ), (0 : ℕ))
               else (d.flow_window_frames + 1, d.vehicle_entry_count)).1,
            vehicle_entry_count :=
              (if ((d.flow_window_frames + 1 : ℕ) : ℝ) ≥ fps * d.flow_window_duration
               then ((0 : ℕ), (0 : ℕ))
               else (d.flow_window_frames + 1, d.vehicle_entry_count)).2 } := by
        simp only [CongestionDetector.analyze]
        rw [if_neg (by simp : ¬ ((t :: rest).length = 0)),
          pyFloatDiv_of_ne _ _ hroi]
        repeat' split
        all_goals first | rfl | simp_all
      refine ⟨?_, ?_⟩
      · rw [hsnd]
        exact ⟨rfl, rfl, rfl, rfl, rfl, rfl, rfl, rfl, rfl, rfl⟩
      · rw [hsnd]
        by_cases hcond :
            (((d.flow_window_frames + 1 : ℕ) : ℝ) ≥ fps * d.flow_window_duration)
        · right
          rw [if_pos hcond]
          exact ⟨rfl, rfl⟩
        · left
          rw [if_neg hcond]
          exact ⟨rfl, rfl⟩

theorem analyze_state_effect_witness :
    (defaultDetector.analyze [] 0 30 none).2 = defaultDetector ∧
    (defaultDetector.analyze [sampleTrack] 0 30 none).2.roi_area =
      defaultDetector.roi_area ∧
    (zeroRoiDetector.analyze [sampleTrack] 0 30 none).2 = zeroRoiDetector := by
  refine ⟨(analyze_state_effect defaultDetector [] 0 30 none).1 rfl, ?_, ?_⟩
  · exact ((analyze_state_effect defaultDetector [sampleTrack] 0 30 none).2.2
      (by simp) (by norm_num [defaultDetector])).1.1
  · exact ((analyze_state_effect zeroRoiDetector [sampleTrack] 0 30 none).2.1
      (by simp) rfl).2

/-! ## Claim C2 -/

/-- Claim C2 counterexample: with window `[10, 10, 10]` the standard deviation
is `0`, so the z-score gate cannot fire; `add_speed 1000` admits the raw value
and returns `257.5` — far from `10`, contradicting the claimed outcome at this
window. -/
theorem speed_smoother_constant_window_counterexample :
    (SpeedSmoother.add_speed ⟨5, 3, [10, 10, 10]⟩ 1000).1 = 515 / 2 ∧
    (100 : ℝ) < |(SpeedSmoother.add_speed ⟨5, 3, [10, 10, 10]⟩ 1000).1 - 10| := by
  have hvar : listVar [(10 : ℝ), 10, 10] = 0 := by
    norm_num [listVar, listMean]
  have hval : (SpeedSmoother.add_speed ⟨5, 3, [10, 10, 10]⟩ 1000).1 = 515 / 2 := by
    simp only [SpeedSmoother.add_speed]
    rw [hvar, Real.sqrt_zero]
    rw [if_pos (show (2 : ℕ) < ([(10 : ℝ), 10, 10]).length by norm_num)]
    rw [if_neg (fun hc => lt_irrefl (0 : ℝ) hc.1)]
    norm_num [dequeAppend, listMean]
  refine ⟨hval, ?_⟩
  rw [hval, show (515 : ℝ) / 2 - 10 = 495 / 2 by norm_num,
    abs_of_pos (show (0 : ℝ) < 495 / 2 by norm_num)]
  norm_num

/-- Claim C2 (amended): `add_speed` substitutes the incoming value with the
window mean precisely when the window holds more than two samples, its
standard deviation is positive, and the z-score exceeds the threshold.  The
claimed window `[10, 10, 10]` has standard deviation `0`, so the gate does not
fire there (see the counterexample); on a window with positive deviation such
as `[10, 10, 11]`, `add_speed 1000` substitutes the mean and the smoothed
output is `31/3`, within `1` of `10`. -/
theorem speed_smoother_outlier_substitution :
    (∀ (sm : SpeedSmoother) (x : ℝ),
      2 < sm.speed_history.length →
      0 < Real.sqrt (listVar sm.speed_history) →
      sm.outlier_threshold <
        |(x - listMean sm.speed_history) / Real.sqrt (listVar sm.speed_history)| →
      sm.add_speed x =
        (listMean (dequeAppend sm.window_size sm.speed_history (listMean sm.speed_history)),
         { sm with speed_history :=
            dequeAppend sm.window_size sm.speed_history (listMean sm.speed_history) })) ∧
    ((SpeedSmoother.add_speed ⟨5, 3, [10, 10, 11]⟩ 1000).1 = 31 / 3 ∧
      |(SpeedSmoother.add_speed ⟨5, 3, [10, 10, 11]⟩ 1000).1 - 10| ≤ 1) := by
  constructor
  · intro sm x h2 hstd hz
    simp only [SpeedSmoother.add_speed]
    rw [if_pos h2, if_pos ⟨hstd, hz⟩]
  · have hmean : listMean [(10 : ℝ), 10, 11] = 31 / 3 := by norm_num [listMean]
    have hvar : listVar [(10 : ℝ), 10, 11] = 2 / 9 := by norm_num [listVar, listMean]
    have hs2 : Real.sqrt (2 / 9) ^ 2 = 2 / 9 := Real.sq_sqrt (by norm_num)
    have hspos : 0 < Real.sqrt (2 / 9) := Real.sqrt_pos.mpr (by norm_num)
    have hlt1 : Real.sqrt (2 / 9) < 1 := by
      nlinarith [hs2, hspos, Real.sqrt_nonneg (2 / 9 : ℝ)]
    have hz : (3 : ℝ) < |(1000 - 31 / 3) / Real.sqrt (2 / 9)| := by
      have hnum : (0 : ℝ) < 1000 - 31 / 3 := by norm_num
      rw [abs_of_pos (div_pos hnum hspos), lt_div_iff₀ hspos]
      linarith [hlt1]
    have heq : (SpeedSmoother.add_speed ⟨5, 3, [10, 10, 11]⟩ 1000).1 = 31 / 3 := by
      simp only [SpeedSmoother.add_speed]
      rw [hvar, hmean]
      rw [if_pos (show (2 : ℕ) < ([(10 : ℝ), 10, 11]).length by norm_num)]
      rw [if_pos ⟨hspos, hz⟩]
      norm_num [dequeAppend, listMean]
    refine ⟨heq, ?_⟩
    rw [heq, show (31 : ℝ) / 3 - 10 = 1 / 3 by norm_num,
      abs_of_pos (show (0 : ℝ) < 1 / 3 by norm_num)]
    norm_num

theorem speed_smoother_outlier_substitution_witness :
    (SpeedSmoother.add_speed ⟨5, 3, [10, 10, 11]⟩ 1000).2.speed_history =
      dequeAppend 5 [10, 10, 11] (listMean [10, 10, 11]) := by
  have hmean : listMean [(10 : ℝ), 10, 11] = 31 / 3 := by norm_num [listMean]
  have hvar : listVar [(10 : ℝ), 10, 11] = 2 / 9 := by norm_num [listVar, listMean]
  have hs2 : Real.sqrt (2 / 9) ^ 2 = 2 / 9 := Real.sq_sqrt (by norm_num)
  have hspos : 0 < Real.sqrt (2 / 9) := Real.sqrt_pos.mpr (by norm_num)
  have hlt1 : Real.sqrt (2 / 9) < 1 := by
    nlinarith [hs2, hspos, Real.sqrt_nonneg (2 / 9 : ℝ)]
  have happ := speed_smoother_outlier_substitution.1 ⟨5, 3, [10, 10, 11]⟩ 1000
    (by norm_num)
    (by
      show 0 < Real.sqrt (listVar [(10 : ℝ), 10, 11])
      rw [hvar]
      exact hspos)
    (by
      show (3 : ℝ) <
        |(1000 - listMean [(10 : ℝ), 10, 11]) / Real.sqrt (listVar [(10 : ℝ), 10, 11])|
      rw [hvar, hmean]
      have hnum : (0 : ℝ) < 1000 - 31 / 3 := by norm_num
      rw [abs_of_pos (div_pos hnum hspos), lt_div_iff₀ hspos]
      linarith [hlt1])
  rw [happ]

/-! ## Claim C1 -/

/-- Claim C1 counterexample: a track with history capacity 2 that received 3
updates holds 2 centroids but also 2 pixel speeds, so
`len(pixel_speed_history) = max(0, len(centroid_history) - 1)` fails once the
speed history saturates — the relation does not keep holding after the
histories reach capacity. -/
theorem speed_history_saturation_counterexample :
    c1Track.speeds_px.length = 2 ∧ c1Track.centroids.length = 2 ∧
    c1Track.speeds_px.length ≠ c1Track.centroids.length - 1 := by
  have h1 : c1Track.speeds_px.length = 2 := rfl
  have h2 : c1Track.centroids.length = 2 := rfl
  exact ⟨h1, h2, by rw [h1, h2]; decide⟩

/-- Claim C1 (amended): after `N` updates of a fresh track with capacity
`H ≥ 2`, `centroid_history` holds `min N H` entries and `pixel_speed_history`
holds `min (N - 1) H`; the claimed relation
`len(pixel_speed_history) = len(centroid_history) - 1` therefore holds for all
`N ≤ H` (each observation after the first adds exactly one speed sample) but
fails once `N` exceeds the capacity, where both histories have length `H`. -/
theorem pixel_speed_history_length (tid H : ℕ) (h2 : 2 ≤ H) (us : List TrackUpd) :
    (applyTrackUpdates us (VehicleTrack.init tid H)).centroids.length = min us.length H ∧
    (applyTrackUpdates us (VehicleTrack.init tid H)).speeds_px.length = min (us.length - 1) H ∧
    (us.length ≤ H →
      (applyTrackUpdates us (VehicleTrack.init tid H)).speeds_px.length =
        (applyTrackUpdates us (VehicleTrack.init tid H)).centroids.length - 1) := by
  have h := applyTrackUpdates_lengths H h2 us (VehicleTrack.init tid H) 0 rfl
    (by simp [VehicleTrack.init]) (by simp [VehicleTrack.init])
  refine ⟨by simpa using h.2.1, by simpa using h.2.2, ?_⟩
  intro hle
  have hc := h.2.1
  have hs := h.2.2
  rw [hc, hs]
  omega

theorem pixel_speed_history_length_witness :
    (applyTrackUpdates [sampleUpd 0, sampleUpd 1] (VehicleTrack.init 1 30)).centroids.length = 2 ∧
    (applyTrackUpdates [sampleUpd 0, sampleUpd 1] (VehicleTrack.init 1 30)).speeds_px.length = 1 := by
  have h := pixel_speed_history_length 1 30 (by norm_num) [sampleUpd 0, sampleUpd 1]
  exact ⟨h.1.trans (by decide), h.2.1.trans (by decide)⟩

/-! ## Claim C4 -/

/-- Claim C4: a track that was just seen (miss-age 0) survives exactly
`max_age` consecutive update calls whose detections omit its id — still
present in `get_active_tracks()` — and is evicted on the `max_age + 1`-st such
call: removed from both maps and archived with `is_active = false`. -/
theorem track_eviction_timing (m : TrackManager) (tid : ℕ) (t : VehicleTrack)
    (us : List (List Detection × ℕ))
    (hnd : (keysA m.tracks).Nodup)
    (ht : lookupA m.tracks tid = some t)
    (ha : lookupA m.track_ages tid = some 0)
    (hmiss : ∀ u ∈ us, tid ∉ u.1.map Detection.track_id) :
    (us.length = m.max_age →
      lookupA (applyTMUpdates us m).tracks tid = some t ∧
      t ∈ (applyTMUpdates us m).get_active_tracks) ∧
    (us.length = m.max_age + 1 →
      lookupA (applyTMUpdates us m).tracks tid = none ∧
      lookupA (applyTMUpdates us m).track_ages tid = none ∧
      { t with is_active := false } ∈ (applyTMUpdates us m).completed_tracks) := by
  constructor
  · intro hlen
    have h := misses_keep us m tid t 0 hnd ht ha hmiss (by omega)
    refine ⟨h.2.2.1, ?_⟩
    show t ∈ (applyTMUpdates us m).tracks.map Prod.snd
    exact lookupA_mem_values _ _ _ h.2.2.1
  · intro hlen
    rcases List.eq_nil_or_concat' us with rfl | ⟨us', u, rfl⟩
    · simp at hlen
    · have hlen' : us'.length = m.max_age := by
        rw [List.length_append] at hlen
        simp at hlen
        omega
      have hmiss' : ∀ v ∈ us', tid ∉ v.1.map Detection.track_id := fun v hv =>
        hmiss v (List.mem_append_left _ hv)
      have humem : u ∈ us' ++ [u] :=
        List.mem_append_right _ (List.mem_singleton_self _)
      have hk := misses_keep us' m tid t 0 hnd ht ha hmiss' (by omega)
      have hstep := update_miss_step (applyTMUpdates us' m) u.1 u.2 tid t
        (0 + us'.length) hk.1 hk.2.2.1 hk.2.2.2 (hmiss u humem)
      have hgt : (applyTMUpdates us' m).max_age < 0 + us'.length + 1 := by
        rw [hk.2.1]
        omega
      have hev := hstep.2.2.2 hgt
      rw [applyTMUpdates_append]
      exact hev

theorem track_eviction_timing_witness :
    (lookupA (applyTMUpdates [([], 1)] c4Manager).tracks 1 = some c4Track) ∧
    (lookupA (applyTMUpdates [([], 1), ([], 2)] c4Manager).tracks 1 = none ∧
     lookupA (applyTMUpdates [([], 1), ([], 2)] c4Manager).track_ages 1 = none) := by
  have ht : lookupA c4Manager.tracks 1 = some c4Track := rfl
  have ha : lookupA c4Manager.track_ages 1 = some 0 := rfl
  have hnd : (keysA c4Manager.tracks).Nodup := by decide
  constructor
  · exact ((track_eviction_timing c4Manager 1 c4Track [([], 1)] hnd ht ha
      (by simp)).1 rfl).1
  · have h := (track_eviction_timing c4Manager 1 c4Track [([], 1), ([], 2)] hnd ht ha
      (by simp)).2 rfl
    exact ⟨h.1, h.2.1⟩

/-! ## Claim C9 -/

/-- Claim C9: starting from a freshly constructed `TrackManager`, after any
sequence of `update`, `remove_track` and `clear` operations, the key set of
`track_ages` equals the key set of `tracks`. -/
theorem tracks_ages_key_sets_equal (max_age max_history : ℕ) (ops : List TMOp)
    (tid : ℕ) :
    (tid ∈ keysA (applyTMOps ops (TrackManager.init max_age max_history)).tracks ↔
     tid ∈ keysA (applyTMOps ops (TrackManager.init max_age max_history)).track_ages) := by
  have h := keysEq_applyTMOps ops (TrackManager.init max_age max_history) rfl
  rw [keysEq] at h
  rw [h]

theorem tracks_ages_key_sets_equal_witness :
    1 ∈ keysA (applyTMOps [TMOp.update [sampleDetection] 0]
      (TrackManager.init 30 30)).track_ages := by
  exact (tracks_ages_key_sets_equal 30 30 [TMOp.update [sampleDetection] 0] 1).mp
    (by decide)

end Traffic
